import Mathlib

/-!
Verification of the SMO (sequential minimal optimization) engine of
`ml/svm.py`: the classification variant (`SVC.SMOClassifier`) and the
regression variant (`SVR.SMORegression`).  Real arithmetic is modelled
exactly over `ℚ`; numpy arrays become functions `Fin n → ℚ`; the mutable
index sets `I0..I4` become `Finset (Fin n)`; a Python `return False`
before any assignment to `self` becomes `Except.ok (false, s)` with the
state `s` passed through unchanged; `raise Exception` becomes
`Except.error ()`.  Python set iteration (whose order is unspecified)
is modelled by iterating `List.finRange n` filtered by set membership.
-/

namespace SVM

/-- Modelled from the spec: `utils.clip` (the file `utils.py` is not part
of the staged sources; the spec describes the operation as clipping the
value into the interval `[L, H]`, equations 13-17 of Platt's paper). -/
def clip (x l h : ℚ) : ℚ := max l (min x h)

/-- Exact value of `sys.float_info.max` (IEEE-754 binary64 DBL_MAX),
used by both `_take_step` threshold rescans as a sentinel. -/
def floatMax : ℚ := 2 ^ 1024 - 2 ^ 971

/-- Precision snap of `SVC.SMOClassifier._take_step` (svm.py lines
367-376): a multiplier within `1e-8 * C` of a bound is set to the bound
exactly; both comparisons are strict. -/
def snapC (C a : ℚ) : ℚ :=
  if a > C - 1 / 10 ^ 8 * C then C
  else if a < 1 / 10 ^ 8 * C then 0
  else a

/-- Precision snap of `SVR.SMORegression._take_step` (svm.py lines
815-834): the threshold is `1e-10 * C` and the lower comparison is
non-strict (`<=`). -/
def snapR (C a : ℚ) : ℚ :=
  if a > C - 1 / 10 ^ 10 * C then C
  else if a ≤ 1 / 10 ^ 10 * C then 0
  else a

/-- Fixed data of one classification training run: `X` the feature
matrix, `y` the `±1` labels, `K` the precomputed kernel matrix,
`linear` whether the kernel is the linear one, `C` the box bound and
`tol` the KKT tolerance. -/
structure CParams (n d : ℕ) where
  X : Fin n → Fin d → ℚ
  y : Fin n → ℚ
  K : Fin n → Fin n → ℚ
  linear : Bool
  C : ℚ
  tol : ℚ
deriving DecidableEq

/-- Mutable state of `SVC.SMOClassifier`: multipliers, error cache, the
five Keerthi index sets, the two thresholds with their realizing
indices (`none` models the `-1` sentinel), the weight vector and the
bias. -/
structure CState (n d : ℕ) where
  alphas : Fin n → ℚ
  errors : Fin n → ℚ
  I0 : Finset (Fin n)
  I1 : Finset (Fin n)
  I2 : Finset (Fin n)
  I3 : Finset (Fin n)
  I4 : Finset (Fin n)
  b_up : ℚ
  b_low : ℚ
  b_up_idx : Option (Fin n)
  b_low_idx : Option (Fin n)
  w : Fin d → ℚ
  b : ℚ
deriving DecidableEq

/-- `SVC.SMOClassifier.__init__` (svm.py lines 260-289).  The two
`next(...)` generator calls raise `StopIteration` when the label vector
lacks a `+1` or a `-1` label, so construction is partial: `none` models
that failure. -/
def initC {n d : ℕ} (p : CParams n d) : Option (CState n d) :=
  match (List.finRange n).find? (fun i => decide (p.y i = 1)),
      (List.finRange n).find? (fun i => decide (p.y i = -1)) with
  | some up, some low =>
    some { alphas := fun _ => 0
           errors := Function.update (Function.update (fun _ => 0) up (-1)) low 1
           I0 := ∅
           I1 := Finset.univ.filter (fun i => p.y i = 1)
           I2 := ∅
           I3 := ∅
           I4 := Finset.univ.filter (fun i => p.y i = -1)
           b_up := -1
           b_low := 1
           b_up_idx := some up
           b_low_idx := some low
           w := fun _ => 0
           b := 0 }
  | _, _ => none

/-- Bounds `L`, `H` on the new `alpha2` (svm.py lines 310-319). -/
def boundsC {n d : ℕ} (p : CParams n d) (s : CState n d) (i1 i2 : Fin n) : ℚ × ℚ :=
  let alpha1 := s.alphas i1
  let alpha2 := s.alphas i2
  if p.y i1 ≠ p.y i2 then
    (max 0 (alpha2 - alpha1), min p.C (p.C + alpha2 - alpha1))
  else
    (max 0 (alpha2 + alpha1 - p.C), min p.C (alpha2 + alpha1))

/-- Second derivative `eta` along the constraint line (svm.py line 326). -/
def etaC {n d : ℕ} (p : CParams n d) (i1 i2 : Fin n) : ℚ :=
  p.K i1 i1 + p.K i2 i2 - 2 * p.K i1 i2

/-- New (unsnapped) `a2` of the classification `_take_step` (svm.py
lines 332-345): closed form clipped into `[L, H]` when `eta > 0`,
otherwise endpoint evaluation with a `1e-12` tie band. -/
def a2C {n d : ℕ} (p : CParams n d) (s : CState n d) (i1 i2 : Fin n) : ℚ :=
  let (L, H) := boundsC p s i1 i2
  let alpha2 := s.alphas i2
  let y2 := p.y i2
  let E1 := s.errors i1
  let E2 := s.errors i2
  if etaC p i1 i2 > 0 then
    clip (alpha2 + y2 * (E1 - E2) / etaC p i1 i2) L H
  else
    let Lobj := y2 * (E1 - E2) * L
    let Hobj := y2 * (E1 - E2) * H
    if Lobj > Hobj + 1 / 10 ^ 12 then L
    else if Lobj < Hobj - 1 / 10 ^ 12 then H
    else alpha2

/-- One index-set recategorization of svm.py lines 383-403, applied to
index `i` with the already-updated multiplier array. -/
def updateSetsC {n d : ℕ} (p : CParams n d) (alphas : Fin n → ℚ) (s : CState n d)
    (i : Fin n) : CState n d :=
  { s with
    I0 := if 0 < alphas i ∧ alphas i < p.C then insert i s.I0 else s.I0.erase i
    I1 := if p.y i = 1 ∧ alphas i = 0 then insert i s.I1 else s.I1.erase i
    I2 := if p.y i = -1 ∧ alphas i = p.C then insert i s.I2 else s.I2.erase i
    I3 := if p.y i = 1 ∧ alphas i = p.C then insert i s.I3 else s.I3.erase i
    I4 := if p.y i = -1 ∧ alphas i = 0 then insert i s.I4 else s.I4.erase i }

/-- Threshold rescan over the free set `I0` (svm.py lines 409-420):
running maximum of the cached errors for `b_low`, running minimum for
`b_up`, starting from the `±sys.float_info.max` sentinels. -/
def thresholdScanC {n : ℕ} (errors : Fin n → ℚ) (l : List (Fin n)) :
    ℚ × Option (Fin n) × ℚ × Option (Fin n) :=
  l.foldl
    (fun acc i =>
      let acc1 :=
        if errors i > acc.1 then (errors i, some i, acc.2.2.1, acc.2.2.2)
        else acc
      if errors i < acc1.2.2.1 then (acc1.1, acc1.2.1, errors i, some i)
      else acc1)
    (-floatMax, none, floatMax, none)

/-- Mutating tail of `SVC.SMOClassifier._take_step` (svm.py lines
351-436), reached once the new `a2` passed the progress test: derive
`a1`, update weight vector, error cache, snapped multipliers, index
sets, and rescan the thresholds. -/
def takeStepUpdateC {n d : ℕ} (p : CParams n d) (s : CState n d) (i1 i2 : Fin n)
    (a2 : ℚ) : CState n d :=
  let alpha1 := s.alphas i1
  let alpha2 := s.alphas i2
  let y1 := p.y i1
  let y2 := p.y i2
  let sg := y1 * y2
  let a1 := alpha1 + sg * (alpha2 - a2)
  let w1 := if p.linear then
      fun j => s.w j + y1 * (a1 - alpha1) * p.X i1 j + y2 * (a2 - alpha2) * p.X i2 j
    else s.w
  let errs : Fin n → ℚ := fun i =>
    if i = i1 then s.errors i1 + y1 * (a1 - alpha1) * p.K i1 i1 + y2 * (a2 - alpha2) * p.K i1 i2
    else if i = i2 then s.errors i2 + y1 * (a1 - alpha1) * p.K i1 i2 + y2 * (a2 - alpha2) * p.K i2 i2
    else if i ∈ s.I0 then s.errors i + y1 * (a1 - alpha1) * p.K i1 i + y2 * (a2 - alpha2) * p.K i2 i
    else s.errors i
  let a1s := snapC p.C a1
  let a2s := snapC p.C a2
  let alphas1 := Function.update (Function.update s.alphas i1 a1s) i2 a2s
  let s1 := updateSetsC p alphas1
    (updateSetsC p alphas1 { s with alphas := alphas1, errors := errs, w := w1 } i1) i2
  let sc := thresholdScanC errs ((List.finRange n).filter (· ∈ s1.I0))
  let sc1 :=
    if i1 ∉ s1.I0 then
      if i1 ∈ s1.I3 ∨ i1 ∈ s1.I4 then
        if errs i1 > sc.1 then (errs i1, some i1, sc.2.2.1, sc.2.2.2) else sc
      else if errs i1 < sc.2.2.1 then (sc.1, sc.2.1, errs i1, some i1) else sc
    else sc
  let sc2 :=
    if i2 ∉ s1.I0 then
      if i2 ∈ s1.I3 ∨ i2 ∈ s1.I4 then
        if errs i2 > sc1.1 then (errs i2, some i2, sc1.2.2.1, sc1.2.2.2) else sc1
      else if errs i2 < sc1.2.2.1 then (sc1.1, sc1.2.1, errs i2, some i2) else sc1
    else sc1
  { s1 with b_low := sc2.1, b_low_idx := sc2.2.1, b_up := sc2.2.2.1, b_up_idx := sc2.2.2.2 }

/-- `SVC.SMOClassifier._take_step` (svm.py lines 291-441).
`Except.ok (false, s)` models a `return False` (which in the source
happens before any mutation), `Except.ok (true, s1)` a successful
update, and `Except.error ()` the `raise Exception('unexpected
status')` after a failed threshold rescan. -/
def takeStepC {n d : ℕ} (p : CParams n d) (s : CState n d) (i1 i2 : Fin n) :
    Except Unit (Bool × CState n d) :=
  if i1 = i2 then .ok (false, s)
  else
    let LH := boundsC p s i1 i2
    if LH.1 = LH.2 then .ok (false, s)
    else
      let alpha2 := s.alphas i2
      let a2 := a2C p s i1 i2
      if |a2 - alpha2| < 1 / 10 ^ 12 * (a2 + alpha2 + 1 / 10 ^ 12) then .ok (false, s)
      else
        let s1 := takeStepUpdateC p s i1 i2 a2
        if s1.b_low_idx = none ∨ s1.b_up_idx = none then .error ()
        else .ok (true, s1)

/-- KKT-violation test and second-index choice shared by both branches
of `SVC.SMOClassifier._examine_example` (svm.py lines 458-484). -/
def examineCheckC {n d : ℕ} (p : CParams n d) (s : CState n d) (i2 : Fin n) (E2 : ℚ) :
    Except Unit (Bool × CState n d) :=
  let v1 := (i2 ∈ s.I0 ∨ i2 ∈ s.I1 ∨ i2 ∈ s.I2) ∧ s.b_low - E2 > 2 * p.tol
  let v2 := (i2 ∈ s.I0 ∨ i2 ∈ s.I3 ∨ i2 ∈ s.I4) ∧ E2 - s.b_up > 2 * p.tol
  if ¬(v1 ∨ v2) then .ok (false, s)
  else
    let i1o : Option (Fin n) :=
      if i2 ∈ s.I0 then
        if s.b_low - E2 > E2 - s.b_up then s.b_low_idx else s.b_up_idx
      else if v2 then s.b_up_idx
      else s.b_low_idx
    match i1o with
    | none => .error ()
    | some i1 => takeStepC p s i1 i2

/-- `SVC.SMOClassifier._examine_example` (svm.py lines 443-484): a free
index reads its cached error; any other index recomputes it from the
multipliers, caches it, and opportunistically tightens the threshold
pair. -/
def examineExampleC {n d : ℕ} (p : CParams n d) (s : CState n d) (i2 : Fin n) :
    Except Unit (Bool × CState n d) :=
  if i2 ∈ s.I0 then examineCheckC p s i2 (s.errors i2)
  else
    let E2 := (∑ j, s.alphas j * p.y j * p.K i2 j) - p.y i2
    let errs := Function.update s.errors i2 E2
    let s1 :=
      if (i2 ∈ s.I1 ∨ i2 ∈ s.I2) ∧ E2 < s.b_up then
        { s with errors := errs, b_up := E2, b_up_idx := some i2 }
      else if (i2 ∈ s.I3 ∨ i2 ∈ s.I4) ∧ E2 > s.b_low then
        { s with errors := errs, b_low := E2, b_low_idx := some i2 }
      else { s with errors := errs }
    examineCheckC p s1 i2 E2

/-- Full sweep of the outer driver (svm.py lines 497-499 and 988-990):
examine every index, summing the booleans. -/
def sweepAll {n : ℕ} {σ : Type} (examine : σ → Fin n → Except Unit (Bool × σ))
    (s : σ) : Except Unit (σ × ℕ) :=
  (List.finRange n).foldlM
    (fun acc i => (examine acc.1 i).map (fun r => (r.2, acc.2 + if r.1 then 1 else 0)))
    (s, 0)

/-- Active-set sweep of the outer driver (svm.py lines 501-508 and
992-999): examine the indices passing `inLimits`, and break out with
the update count reset to zero as soon as `gapClosed` holds. -/
def sweepActiveAux {n : ℕ} {σ : Type} (examine : σ → Fin n → Except Unit (Bool × σ))
    (inLimits : σ → Fin n → Bool) (gapClosed : σ → Bool) :
    List (Fin n) → σ → ℕ → Except Unit (σ × ℕ)
  | [], s, k => .ok (s, k)
  | i :: rest, s, k =>
    if inLimits s i then
      (examine s i).bind (fun r =>
        if gapClosed r.2 then .ok (r.2, 0)
        else sweepActiveAux examine inLimits gapClosed rest r.2 (k + if r.1 then 1 else 0))
    else sweepActiveAux examine inLimits gapClosed rest s k

/-- Mode update at the bottom of the outer loop (svm.py lines 509-512
and 1000-1003): after a full sweep always drop to the active set; after
an active-set sweep with no update go back to a full sweep. -/
def nextExamineAll (ea : Bool) (k : ℕ) : Bool := if ea then false else k == 0

/-- Outer `while` loop of `smo` (svm.py lines 490-515 and 981-1007),
shared by the two variants, with `fuel` bounding the number of sweeps
(`Except.ok none` models running out of fuel).  The returned list is
the sweep trace: for every executed sweep, its mode (`true` = full
sweep) and the number of updates it made. -/
def smoLoop {n : ℕ} {σ : Type} (examine : σ → Fin n → Except Unit (Bool × σ))
    (inLimits : σ → Fin n → Bool) (gapClosed : σ → Bool) (setB : σ → σ) :
    ℕ → σ → ℕ → Bool → Except Unit (Option (σ × List (Bool × ℕ)))
  | fuel, s, nc, ea =>
    if nc = 0 ∧ ea = false then .ok (some (setB s, []))
    else match fuel with
      | 0 => .ok none
      | fuel' + 1 =>
        (if ea then sweepAll examine s
         else sweepActiveAux examine inLimits gapClosed (List.finRange n) s 0).bind
          (fun r =>
            (smoLoop examine inLimits gapClosed setB fuel' r.1 r.2 (nextExamineAll ea r.2)).map
              (fun o => o.map (fun q => (q.1, (ea, r.2) :: q.2))))

/-- `SVC.SMOClassifier.smo` (svm.py lines 486-519): the outer driver
instantiated with the classification selector, the strict-box active
filter, the gap test and the final bias `-(b_low + b_up) / 2`. -/
def smoC {n d : ℕ} (p : CParams n d) (fuel : ℕ) (s : CState n d) :
    Except Unit (Option (CState n d × List (Bool × ℕ))) :=
  smoLoop (examineExampleC p)
    (fun s i => decide (0 < s.alphas i ∧ s.alphas i < p.C))
    (fun s => decide (s.b_up > s.b_low - 2 * p.tol))
    (fun s => { s with b := -(s.b_low + s.b_up) / 2 })
    fuel s 0 true

/-- Fixed data of one regression training run; `epsilon` is the width
of the insensitive tube. -/
structure RParams (n d : ℕ) where
  X : Fin n → Fin d → ℚ
  y : Fin n → ℚ
  K : Fin n → Fin n → ℚ
  linear : Bool
  C : ℚ
  epsilon : ℚ
  tol : ℚ
deriving DecidableEq

/-- Mutable state of `SVR.SMORegression`: the two multiplier arrays,
error cache, the four Shevade index sets, thresholds, weight vector and
bias. -/
structure RState (n d : ℕ) where
  alphas_p : Fin n → ℚ
  alphas_n : Fin n → ℚ
  errors : Fin n → ℚ
  I0 : Finset (Fin n)
  I1 : Finset (Fin n)
  I2 : Finset (Fin n)
  I3 : Finset (Fin n)
  b_up : ℚ
  b_low : ℚ
  b_up_idx : Option (Fin n)
  b_low_idx : Option (Fin n)
  w : Fin d → ℚ
  b : ℚ
deriving DecidableEq

/-- `SVR.SMORegression.__init__` (svm.py lines 649-673); it reads
`y[0]`, so the sample count must be positive. -/
def initR {n d : ℕ} (p : RParams n d) (h : 0 < n) : RState n d :=
  { alphas_p := fun _ => 0
    alphas_n := fun _ => 0
    errors := fun _ => 0
    I0 := ∅
    I1 := Finset.univ
    I2 := ∅
    I3 := ∅
    b_up := p.y ⟨0, h⟩ + p.epsilon
    b_low := p.y ⟨0, h⟩ - p.epsilon
    b_up_idx := some ⟨0, h⟩
    b_low_idx := some ⟨0, h⟩
    w := fun _ => 0
    b := 0 }

/-- Local state of the four-case loop of
`SVR.SMORegression._take_step` (svm.py lines 695-792): the four working
multipliers, the working `delta_E`, the per-case guard flags, the
`changed`/`finished` flags, and (as a ghost field used only by proofs)
the list of the cases entered so far, in order. -/
structure RCaseState where
  a1p : ℚ
  a1n : ℚ
  a2p : ℚ
  a2n : ℚ
  dE : ℚ
  c1 : Bool
  c2 : Bool
  c3 : Bool
  c4 : Bool
  changed : Bool
  finished : Bool
  fires : List ℕ
deriving DecidableEq

/-- One iteration of the regression case loop (svm.py lines 700-792):
the first not-yet-tried case whose sign conditions hold is applied
(`eta` arrives already clamped to be non-negative, `gamma` and the
original `alphas[i2]` values `o2p`, `o2n` are loop constants), and
`delta_E` is then shifted by the kernel-weighted change of the second
sample's net multiplier. -/
def rCaseStep (C eps eta gamma o2p o2n : ℚ) (st : RCaseState) : RCaseState :=
  let st1 :=
    if ¬st.c1 ∧ (st.a1p > 0 ∨ (st.a1n = 0 ∧ st.dE > 0)) ∧
        (st.a2p > 0 ∨ (st.a2n = 0 ∧ st.dE < 0)) then
      let L := max 0 (gamma - C)
      let H := min C gamma
      if L < H then
        let a2 := if eta > 0 then clip (st.a2p - st.dE / eta) L H
          else if -L * st.dE > -H * st.dE then L else H
        let a1 := st.a1p - (a2 - st.a2p)
        if |a1 - st.a1p| > 1 / 10 ^ 12 ∨ |a2 - st.a2p| > 1 / 10 ^ 12 then
          { st with a1p := a1, a2p := a2, changed := true, c1 := true, fires := st.fires ++ [1] }
        else { st with c1 := true, fires := st.fires ++ [1] }
      else { st with finished := true, c1 := true, fires := st.fires ++ [1] }
    else if ¬st.c2 ∧ (st.a1p > 0 ∨ (st.a1n = 0 ∧ st.dE > 2 * eps)) ∧
        (st.a2n > 0 ∨ (st.a2p = 0 ∧ st.dE > 2 * eps)) then
      let L := max 0 (-gamma)
      let H := min C (-gamma + C)
      if L < H then
        let a2 := if eta > 0 then clip (st.a2n + (st.dE - 2 * eps) / eta) L H
          else if L * (-(2 * eps) + st.dE) > H * (-(2 * eps) + st.dE) then L else H
        let a1 := st.a1p + (a2 - st.a2n)
        if |a1 - st.a1p| > 1 / 10 ^ 12 ∨ |a2 - st.a2n| > 1 / 10 ^ 12 then
          { st with a1p := a1, a2n := a2, changed := true, c2 := true, fires := st.fires ++ [2] }
        else { st with c2 := true, fires := st.fires ++ [2] }
      else { st with finished := true, c2 := true, fires := st.fires ++ [2] }
    else if ¬st.c3 ∧ (st.a1n > 0 ∨ (st.a1p = 0 ∧ st.dE < -(2 * eps))) ∧
        (st.a2p > 0 ∨ (st.a2n = 0 ∧ st.dE < -(2 * eps))) then
      let L := max 0 gamma
      let H := min C (C + gamma)
      if L < H then
        let a2 := if eta > 0 then clip (st.a2p - (st.dE + 2 * eps) / eta) L H
          else if -L * (2 * eps + st.dE) > -H * (2 * eps + st.dE) then L else H
        let a1 := st.a1n + (a2 - st.a2p)
        if |a1 - st.a1n| > 1 / 10 ^ 12 ∨ |a2 - st.a2p| > 1 / 10 ^ 12 then
          { st with a1n := a1, a2p := a2, changed := true, c3 := true, fires := st.fires ++ [3] }
        else { st with c3 := true, fires := st.fires ++ [3] }
      else { st with finished := true, c3 := true, fires := st.fires ++ [3] }
    else if ¬st.c4 ∧ (st.a1n > 0 ∨ (st.a1p = 0 ∧ st.dE < 0)) ∧
        (st.a2n > 0 ∨ (st.a2p = 0 ∧ st.dE > 0)) then
      let L := max 0 (-gamma - C)
      let H := min C (-gamma)
      if L < H then
        let a2 := if eta > 0 then clip (st.a2n + st.dE / eta) L H
          else if L * st.dE > H * st.dE then L else H
        let a1 := st.a1n - (a2 - st.a2n)
        if |a1 - st.a1n| > 1 / 10 ^ 12 ∨ |a2 - st.a2n| > 1 / 10 ^ 12 then
          { st with a1n := a1, a2n := a2, changed := true, c4 := true, fires := st.fires ++ [4] }
        else { st with c4 := true, fires := st.fires ++ [4] }
      else { st with finished := true, c4 := true, fires := st.fires ++ [4] }
    else { st with finished := true }
  { st1 with dE := st1.dE + eta * ((st1.a2p - st1.a2n) - (o2p - o2n)) }

/-- The case loop run to quiescence; every iteration either sets a new
case flag or sets `finished`, so any `fuel ≥ 5` reaches the fixed
point (`rCaseLoop_finished` below). -/
def rCaseLoop (C eps eta gamma o2p o2n : ℚ) : ℕ → RCaseState → RCaseState
  | 0, st => st
  | fuel + 1, st =>
    if st.finished then st
    else rCaseLoop C eps eta gamma o2p o2n fuel (rCaseStep C eps eta gamma o2p o2n st)

/-- Initial case-loop state built by `_take_step` from the stored
multipliers and cached errors of the chosen pair. -/
def rCaseInit {n d : ℕ} (s : RState n d) (i1 i2 : Fin n) : RCaseState :=
  { a1p := s.alphas_p i1, a1n := s.alphas_n i1
    a2p := s.alphas_p i2, a2n := s.alphas_n i2
    dE := s.errors i1 - s.errors i2
    c1 := false, c2 := false, c3 := false, c4 := false
    changed := false, finished := false, fires := [] }

/-- Clamped second derivative of the regression `_take_step` (svm.py
lines 688-691). -/
def etaR {n d : ℕ} (p : RParams n d) (i1 i2 : Fin n) : ℚ :=
  let e := p.K i1 i1 + p.K i2 i2 - 2 * p.K i1 i2
  if e < 0 then 0 else e

/-- One index-set recategorization of svm.py lines 841-857. -/
def updateSetsR {n d : ℕ} (p : RParams n d) (ap an : Fin n → ℚ) (s : RState n d)
    (i : Fin n) : RState n d :=
  { s with
    I0 := if 0 < ap i ∧ ap i < p.C ∨ 0 < an i ∧ an i < p.C then insert i s.I0 else s.I0.erase i
    I1 := if ap i = 0 ∧ an i = 0 then insert i s.I1 else s.I1.erase i
    I2 := if ap i = 0 ∧ an i = p.C then insert i s.I2 else s.I2.erase i
    I3 := if ap i = p.C ∧ an i = 0 then insert i s.I3 else s.I3.erase i }

/-- Threshold rescan over the free set of the regression `_take_step`
(svm.py lines 865-878), comparing against `errors ± epsilon`. -/
def thresholdScanR {n : ℕ} (C eps : ℚ) (ap an errors : Fin n → ℚ) (l : List (Fin n)) :
    ℚ × Option (Fin n) × ℚ × Option (Fin n) :=
  l.foldl
    (fun acc i =>
      let acc1 :=
        if 0 < ap i ∧ ap i < C ∧ errors i - eps > acc.1 then
          (errors i - eps, some i, acc.2.2.1, acc.2.2.2)
        else if 0 < an i ∧ an i < C ∧ errors i + eps > acc.1 then
          (errors i + eps, some i, acc.2.2.1, acc.2.2.2)
        else acc
      if 0 < ap i ∧ ap i < C ∧ errors i - eps < acc1.2.2.1 then
        (acc1.1, acc1.2.1, errors i - eps, some i)
      else if 0 < an i ∧ an i < C ∧ errors i + eps < acc1.2.2.1 then
        (acc1.1, acc1.2.1, errors i + eps, some i)
      else acc1)
    (-floatMax, none, floatMax, none)

/-- Special-casing of one touched index outside the free set in the
regression threshold rescan (svm.py lines 880-894). -/
def thresholdSpecialR {n d : ℕ} (p : RParams n d) (s : RState n d) (errs : Fin n → ℚ)
    (i : Fin n) (acc : ℚ × Option (Fin n) × ℚ × Option (Fin n)) :
    ℚ × Option (Fin n) × ℚ × Option (Fin n) :=
  if i ∉ s.I0 then
    let acc1 :=
      if i ∈ s.I2 ∧ errs i + p.epsilon > acc.1 then
        (errs i + p.epsilon, some i, acc.2.2.1, acc.2.2.2)
      else if i ∈ s.I1 ∧ errs i - p.epsilon > acc.1 then
        (errs i - p.epsilon, some i, acc.2.2.1, acc.2.2.2)
      else acc
    if i ∈ s.I3 ∧ errs i - p.epsilon < acc1.2.2.1 then
      (acc1.1, acc1.2.1, errs i - p.epsilon, some i)
    else if i ∈ s.I1 ∧ errs i + p.epsilon < acc1.2.2.1 then
      (acc1.1, acc1.2.1, errs i + p.epsilon, some i)
    else acc1
  else acc

/-- Mutating tail of `SVR.SMORegression._take_step` (svm.py lines
797-897), reached when the case loop reported a change. -/
def takeStepUpdateR {n d : ℕ} (p : RParams n d) (s : RState n d) (i1 i2 : Fin n)
    (st : RCaseState) : RState n d :=
  let d1 := (s.alphas_p i1 - s.alphas_n i1) - (st.a1p - st.a1n)
  let d2 := (s.alphas_p i2 - s.alphas_n i2) - (st.a2p - st.a2n)
  let w1 := if p.linear then fun j => s.w j - (d1 * p.X i1 j + d2 * p.X i2 j) else s.w
  let errs : Fin n → ℚ := fun i =>
    if i = i1 then s.errors i1 + (d1 * p.K i1 i1 + d2 * p.K i1 i2)
    else if i = i2 then s.errors i2 + (d1 * p.K i1 i2 + d2 * p.K i2 i2)
    else if i ∈ s.I0 then s.errors i + (d1 * p.K i1 i + d2 * p.K i2 i)
    else s.errors i
  let ap1 := Function.update (Function.update s.alphas_p i1 (snapR p.C st.a1p)) i2 (snapR p.C st.a2p)
  let an1 := Function.update (Function.update s.alphas_n i1 (snapR p.C st.a1n)) i2 (snapR p.C st.a2n)
  let s1 := updateSetsR p ap1 an1
    (updateSetsR p ap1 an1 { s with alphas_p := ap1, alphas_n := an1, errors := errs, w := w1 } i1) i2
  let sc := thresholdScanR p.C p.epsilon ap1 an1 errs ((List.finRange n).filter (· ∈ s1.I0))
  let sc2 := thresholdSpecialR p s1 errs i2 (thresholdSpecialR p s1 errs i1 sc)
  { s1 with b_low := sc2.1, b_low_idx := sc2.2.1, b_up := sc2.2.2.1, b_up_idx := sc2.2.2.2 }

/-- `SVR.SMORegression._take_step` (svm.py lines 675-899). -/
def takeStepR {n d : ℕ} (p : RParams n d) (s : RState n d) (i1 i2 : Fin n) :
    Except Unit (Bool × RState n d) :=
  if i1 = i2 then .ok (false, s)
  else
    let gamma := s.alphas_p i1 - s.alphas_n i1 + s.alphas_p i2 - s.alphas_n i2
    let st := rCaseLoop p.C p.epsilon (etaR p i1 i2) gamma (s.alphas_p i2) (s.alphas_n i2)
      5 (rCaseInit s i1 i2)
    if st.changed = false then .ok (false, s)
    else
      let s1 := takeStepUpdateR p s i1 i2 st
      if s1.b_low_idx = none ∨ s1.b_up_idx = none then .error ()
      else .ok (true, s1)

/-- KKT check and pairing of `SVR.SMORegression._examine_example`
(svm.py lines 923-970): `Except.error ()` is the `raise` on an index in
no category; `Except.ok none` means optimal; `Except.ok (some i1o)`
carries the chosen first index. -/
def examineSelectR {n d : ℕ} (p : RParams n d) (s : RState n d) (i2 : Fin n)
    (E2 a2p a2n : ℚ) : Except Unit (Option (Option (Fin n))) :=
  if i2 ∈ s.I0 then
    if 0 < a2p ∧ a2p < p.C then
      if s.b_low - (E2 - p.epsilon) > 2 * p.tol then
        .ok (some (if (E2 - p.epsilon) - s.b_up > s.b_low - (E2 - p.epsilon) then
          s.b_up_idx else s.b_low_idx))
      else if (E2 - p.epsilon) - s.b_up > 2 * p.tol then
        .ok (some (if s.b_low - (E2 - p.epsilon) > (E2 - p.epsilon) - s.b_up then
          s.b_low_idx else s.b_up_idx))
      else .ok none
    else if 0 < a2n ∧ a2n < p.C then
      if s.b_low - (E2 + p.epsilon) > 2 * p.tol then
        .ok (some (if (E2 + p.epsilon) - s.b_up > s.b_low - (E2 + p.epsilon) then
          s.b_up_idx else s.b_low_idx))
      else if (E2 + p.epsilon) - s.b_up > 2 * p.tol then
        .ok (some (if s.b_low - (E2 + p.epsilon) > (E2 + p.epsilon) - s.b_up then
          s.b_low_idx else s.b_up_idx))
      else .ok none
    else .ok none
  else if i2 ∈ s.I1 then
    if s.b_low - (E2 + p.epsilon) > 2 * p.tol then
      .ok (some (if (E2 + p.epsilon) - s.b_up > s.b_low - (E2 + p.epsilon) then
        s.b_up_idx else s.b_low_idx))
    else if (E2 - p.epsilon) - s.b_up > 2 * p.tol then
      .ok (some (if s.b_low - (E2 - p.epsilon) > (E2 - p.epsilon) - s.b_up then
        s.b_low_idx else s.b_up_idx))
    else .ok none
  else if i2 ∈ s.I2 then
    if (E2 + p.epsilon) - s.b_up > 2 * p.tol then .ok (some s.b_up_idx) else .ok none
  else if i2 ∈ s.I3 then
    if s.b_low - (E2 - p.epsilon) > 2 * p.tol then .ok (some s.b_low_idx) else .ok none
  else .error ()

/-- `SVR.SMORegression._examine_example` (svm.py lines 901-975).  A
chosen first index that is the `-1` sentinel (`none`, impossible after
construction) is modelled as the failure it would be. -/
def examineExampleR {n d : ℕ} (p : RParams n d) (s : RState n d) (i2 : Fin n) :
    Except Unit (Bool × RState n d) :=
  let a2p := s.alphas_p i2
  let a2n := s.alphas_n i2
  let cont := fun (s1 : RState n d) (E2 : ℚ) =>
    match examineSelectR p s1 i2 E2 a2p a2n with
    | .error _ => .error ()
    | .ok none => .ok (false, s1)
    | .ok (some none) => .error ()
    | .ok (some (some i1)) => takeStepR p s1 i1 i2
  if i2 ∈ s.I0 then cont s (s.errors i2)
  else
    let E2 := p.y i2 - ∑ j, (s.alphas_p j - s.alphas_n j) * p.K i2 j
    let errs := Function.update s.errors i2 E2
    let s1 :=
      if i2 ∈ s.I1 then
        if E2 + p.epsilon < s.b_up then
          { s with errors := errs, b_up := E2 + p.epsilon, b_up_idx := some i2 }
        else if E2 - p.epsilon > s.b_low then
          { s with errors := errs, b_low := E2 - p.epsilon, b_low_idx := some i2 }
        else { s with errors := errs }
      else if i2 ∈ s.I2 ∧ E2 + p.epsilon > s.b_low then
        { s with errors := errs, b_low := E2 + p.epsilon, b_low_idx := some i2 }
      else if i2 ∈ s.I3 ∧ E2 - p.epsilon < s.b_up then
        { s with errors := errs, b_up := E2 - p.epsilon, b_up_idx := some i2 }
      else { s with errors := errs }
    cont s1 E2

/-- `SVR.SMORegression.smo` (svm.py lines 977-1011): the shared outer
driver with the regression selector, active filter and the final bias
`(b_low + b_up) / 2`. -/
def smoR {n d : ℕ} (p : RParams n d) (fuel : ℕ) (s : RState n d) :
    Except Unit (Option (RState n d × List (Bool × ℕ))) :=
  smoLoop (examineExampleR p)
    (fun s i => decide (0 < s.alphas_p i ∧ s.alphas_p i < p.C ∨
      0 < s.alphas_n i ∧ s.alphas_n i < p.C))
    (fun s => decide (s.b_up > s.b_low - 2 * p.tol))
    (fun s => { s with b := (s.b_low + s.b_up) / 2 })
    fuel s 0 true

/-- Box constraint for the classification multipliers. -/
def CBox {n d : ℕ} (p : CParams n d) (s : CState n d) : Prop :=
  ∀ i, 0 ≤ s.alphas i ∧ s.alphas i ≤ p.C

/-- Labels already mapped to `±1`, as the wrapper guarantees. -/
def CLabels {n d : ℕ} (p : CParams n d) : Prop :=
  ∀ i, p.y i = 1 ∨ p.y i = -1

/-- Box constraint for the two regression multiplier arrays. -/
def RBox {n d : ℕ} (p : RParams n d) (s : RState n d) : Prop :=
  ∀ i, (0 ≤ s.alphas_p i ∧ s.alphas_p i ≤ p.C) ∧ (0 ≤ s.alphas_n i ∧ s.alphas_n i ≤ p.C)

/-- Complementarity of the paired regression multipliers
(`alpha_plus[i] * alpha_minus[i] == 0`, kept by the update cases). -/
def RCompl {n d : ℕ} (s : RState n d) : Prop :=
  ∀ i, s.alphas_p i = 0 ∨ s.alphas_n i = 0

/-- Box constraint on the case-loop locals. -/
def LBox (C : ℚ) (st : RCaseState) : Prop :=
  (0 ≤ st.a1p ∧ st.a1p ≤ C) ∧ (0 ≤ st.a1n ∧ st.a1n ≤ C) ∧
    (0 ≤ st.a2p ∧ st.a2p ≤ C) ∧ (0 ≤ st.a2n ∧ st.a2n ≤ C)

/-- Complementarity of the case-loop locals. -/
def LCompl (st : RCaseState) : Prop :=
  (st.a1p = 0 ∨ st.a1n = 0) ∧ (st.a2p = 0 ∨ st.a2n = 0)

/-- Mode-transition rule as the spec's claim literally states it: after
a full sweep switch to active-set mode, after a zero-update active-set
sweep switch to full-sweep mode, and after a sweep of EITHER kind with
at least one update repeat the same mode. -/
def modeRuleClaim (a b : Bool × ℕ) : Prop :=
  (a.1 = true → b.1 = false) ∧ (a.1 = false ∧ a.2 = 0 → b.1 = true) ∧
    (0 < a.2 → b.1 = a.1)

/-- Amended mode-transition rule: the repeat-on-progress clause only
applies to active-set sweeps; a full sweep always switches to
active-set mode, updates or not. -/
def modeRule (a b : Bool × ℕ) : Prop :=
  (a.1 = true → b.1 = false) ∧ (a.1 = false ∧ a.2 = 0 → b.1 = true) ∧
    (a.1 = false ∧ 0 < a.2 → b.1 = false)

/-- New `a2` as the claim describes the `eta <= 0` branch: evaluate the
restricted objective at the endpoints and pick the better one, with
exact ties keeping the current value (no `1e-12` tie band). -/
def claimA2C {n d : ℕ} (p : CParams n d) (s : CState n d) (i1 i2 : Fin n) : ℚ :=
  let LH := boundsC p s i1 i2
  let alpha2 := s.alphas i2
  let y2 := p.y i2
  let E1 := s.errors i1
  let E2 := s.errors i2
  if etaC p i1 i2 > 0 then
    clip (alpha2 + y2 * (E1 - E2) / etaC p i1 i2) LH.1 LH.2
  else
    let Lobj := y2 * (E1 - E2) * LH.1
    let Hobj := y2 * (E1 - E2) * LH.2
    if Lobj > Hobj then LH.1
    else if Lobj < Hobj then LH.2
    else alpha2

/-- Value of a successful `Except` computation, with a fallback for the
failure case; used to name the outcome of a concrete run in closed
statements. -/
def okOr {α : Type} (e : Except Unit α) (dflt : α) : α :=
  match e with
  | .ok x => x
  | .error _ => dflt

/-- Two-point classification training set: labels `+1`, `-1`, identity
kernel matrix, `C = 1`, `tol = 1e-3`. -/
def pC0 : CParams 2 1 :=
  { X := ![![1], ![-1]], y := ![1, -1], K := fun i j => if i = j then 1 else 0,
    linear := false, C := 1, tol := 1 / 1000 }

/-- The state `SVC.SMOClassifier.__init__` builds on `pC0`. -/
def sC0 : CState 2 1 :=
  { alphas := ![0, 0], errors := ![-1, 1], I0 := ∅, I1 := {0}, I2 := ∅, I3 := ∅,
    I4 := {1}, b_up := -1, b_low := 1, b_up_idx := some 0, b_low_idx := some 1,
    w := ![0], b := 0 }

/-- Final engine state of the `smo` run on `pC0` from `sC0`. -/
def rC0 : CState 2 1 :=
  { alphas := ![1, 1], errors := ![0, 0], I0 := ∅, I1 := ∅, I2 := {1}, I3 := {0},
    I4 := ∅, b_up := 0, b_low := 0, b_up_idx := some 1, b_low_idx := some 0,
    w := ![0], b := 0 }

/-- Labels lacking the `-1` class: `SVC.SMOClassifier.__init__` fails on
these (its `next` call finds no negative index). -/
def pC10 : CParams 2 1 :=
  { pC0 with y := ![1, 1] }

/-- State with equal cached errors at both indices, so the classification
pair update computes a negligible `alpha2` change. -/
def sC4 : CState 2 1 :=
  { sC0 with errors := ![0, 0] }

/-- Free, already-optimal classification state: index `0` is in `I0`
and both per-index gaps are zero. -/
def sC6 : CState 2 1 :=
  { sC0 with I0 := {0}, errors := ![0, 0], b_low := 0, b_up := 0 }

/-- All-ones kernel matrix (so `eta = 0`) with an error difference of
`1e-12`: the endpoint objectives then differ by less than the `1e-12`
tie band. -/
def pC7 : CParams 2 1 :=
  { pC0 with K := fun _ _ => 1 }

/-- State paired with `pC7`: `alphas = [1/2, 1/4]`,
`errors = [1e-12, 0]`. -/
def sC7 : CState 2 1 :=
  { sC0 with alphas := ![1 / 2, 1 / 4], errors := ![1 / 10 ^ 12, 0] }

/-- Two-point regression training set: identity kernel, `C = 1`,
`epsilon = 0.1`, `tol = 1e-3`. -/
def pR0 : RParams 2 1 :=
  { X := ![![1], ![-1]], y := ![0, 0], K := fun i j => if i = j then 1 else 0,
    linear := false, C := 1, epsilon := 1 / 10, tol := 1 / 1000 }

/-- Regression state whose pair update drives `alphas_n[1]` to the tiny
value `5e-11`, which the precision snap then rounds to `0`, perturbing
the equality-constraint sum. -/
def sR2 : RState 2 1 :=
  { alphas_p := ![0, 0], alphas_n := ![3 / 10, 1 / 2], errors := ![0, 1 - 1 / 10 ^ 10],
    I0 := {0, 1}, I1 := ∅, I2 := ∅, I3 := ∅,
    b_up := 0, b_low := 0, b_up_idx := some 0, b_low_idx := some 0,
    w := ![0], b := 0 }

/-- Free regression state where both raw-error gaps at index `1` are
zero but the `epsilon`-shifted gap used by the code is `0.1`, above
`2 * tol`. -/
def sR6 : RState 2 1 :=
  { sR2 with errors := ![0, 1], b_up := 1, b_low := 1 }

/-- Free regression state where the `epsilon`-shifted gaps at index `1`
are both zero, so the selector reports optimality. -/
def sR6b : RState 2 1 :=
  { sR6 with errors := ![0, 9 / 10] }

/-- The state `SVR.SMORegression.__init__` builds on `pR0`; both
training points lie inside the `epsilon` tube, so the whole `smo` run
is a single update-free full sweep that leaves this state fixed. -/
def sR0 : RState 2 1 :=
  { alphas_p := ![0, 0], alphas_n := ![0, 0], errors := ![0, 0],
    I0 := ∅, I1 := Finset.univ, I2 := ∅, I3 := ∅,
    b_up := 1 / 10, b_low := -(1 / 10), b_up_idx := some 0, b_low_idx := some 0,
    w := ![0], b := 0 }

/-- Engine state after the successful pair update `(0, 1)` on `sR6`. -/
def sR6out : RState 2 1 :=
  { alphas_p := ![0, 0], alphas_n := ![4 / 5, 0], errors := ![1 / 2, 1 / 2],
    I0 := {0}, I1 := {1}, I2 := ∅, I3 := ∅,
    b_up := 3 / 5, b_low := 3 / 5, b_up_idx := some 0, b_low_idx := some 0,
    w := ![0], b := 0 }

/-- Invariant of the regression case loop: the four working multipliers
stay in the box and pairwise complementary, their signed combination
equals the loop constant `gamma`, case 1 can only have been entered
when `gamma > 0` and case 4 only when `gamma < 0`, and the ghost trace
`fires` mirrors the guard flags without repetition. -/
structure LInv (C gamma : ℚ) (st : RCaseState) : Prop where
  box : LBox C st
  compl : LCompl st
  gam : st.a1p - st.a1n + st.a2p - st.a2n = gamma
  c1pos : st.c1 = true → 0 < gamma
  c4neg : st.c4 = true → gamma < 0
  f1 : st.c1 = true ↔ 1 ∈ st.fires
  f2 : st.c2 = true ↔ 2 ∈ st.fires
  f3 : st.c3 = true ↔ 3 ∈ st.fires
  f4 : st.c4 = true ↔ 4 ∈ st.fires
  nd : st.fires.Nodup
  sub : ∀ x ∈ st.fires, x = 1 ∨ x = 2 ∨ x = 3 ∨ x = 4

/-- Termination measure of the case loop: the number of not-yet-tried
cases plus one while the loop has not finished.  Every iteration
strictly decreases it. -/
def loopMeasure (st : RCaseState) : ℕ :=
  (if st.c1 then 0 else 1) + (if st.c2 then 0 else 1) + (if st.c3 then 0 else 1) +
    (if st.c4 then 0 else 1) + (if st.finished then 0 else 1)

/-- Case-loop state entering `_take_step(0, 1)` on `sR6`. -/
def lsR6a : RCaseState :=
  ⟨0, 3 / 10, 0, 1 / 2, -1, false, false, false, false, false, false, []⟩

/-- Case-loop state after case 4 fires on `lsR6a`. -/
def lsR6b : RCaseState :=
  ⟨0, 4 / 5, 0, 0, 0, false, false, false, true, true, false, [4]⟩

/-- Quiescent case-loop state of the `sR6` pair update. -/
def lsR6c : RCaseState :=
  ⟨0, 4 / 5, 0, 0, 1, false, false, false, true, true, true, [4]⟩

/-- Engine state after the successful pair update `(0, 1)` on `sR2`:
the pre-snap `alphas_n[1] = 5e-11` has been snapped to `0`, shifting
`sum(alphas_p - alphas_n)` by `5e-11`. -/
def sR2out : RState 2 1 :=
  { alphas_p := ![0, 0], alphas_n := ![15999999999 / 20000000000, 0],
    errors := ![9999999999 / 20000000000, 9999999999 / 20000000000],
    I0 := {0}, I1 := {1}, I2 := ∅, I3 := ∅,
    b_up := 11999999999 / 20000000000, b_low := 11999999999 / 20000000000,
    b_up_idx := some 0, b_low_idx := some 0, w := ![0], b := 0 }

/-- Case-loop state entering `_take_step(0, 1)` on `sR2`. -/
def lsR2a : RCaseState :=
  ⟨0, 3 / 10, 0, 1 / 2, -(9999999999 / 10000000000), false, false, false, false,
    false, false, []⟩

/-- Case-loop state after case 4 fires on `lsR2a`. -/
def lsR2b : RCaseState :=
  ⟨0, 15999999999 / 20000000000, 0, 1 / 20000000000, 0, false, false, false, true,
    true, false, [4]⟩

/-- Quiescent case-loop state of the `sR2` pair update. -/
def lsR2c : RCaseState :=
  ⟨0, 15999999999 / 20000000000, 0, 1 / 20000000000, 9999999999 / 10000000000,
    false, false, false, true, true, true, [4]⟩

lemma modeRule_of_next (ea : Bool) (k : ℕ) (b : Bool × ℕ)
    (h : b.1 = nextExamineAll ea k) : modeRule (ea, k) b := by
  refine ⟨fun hea => ?_, fun hk => ?_, fun hk => ?_⟩
  · have h1 : ea = true := hea
    subst h1
    simpa [nextExamineAll] using h
  · have h1 : ea = false := hk.1
    have h2 : k = 0 := hk.2
    subst h1
    subst h2
    simpa [nextExamineAll] using h
  · have h1 : ea = false := hk.1
    have h2 : (k == 0) = false := beq_eq_false_iff_ne.mpr (by omega : k ≠ 0)
    subst h1
    simpa [nextExamineAll, h2] using h

lemma smoLoop_result {n : ℕ} {σ : Type} (examine : σ → Fin n → Except Unit (Bool × σ))
    (inLimits : σ → Fin n → Bool) (gapClosed : σ → Bool) (setB : σ → σ) :
    ∀ (fuel : ℕ) (s : σ) (nc : ℕ) (ea : Bool) (r : σ) (t : List (Bool × ℕ)),
      smoLoop examine inLimits gapClosed setB fuel s nc ea = .ok (some (r, t)) →
      (∃ s0, r = setB s0) ∧ (∀ a, t.head? = some a → a.1 = ea) ∧ t.Chain' modeRule := by
  intro fuel
  induction fuel with
  | zero =>
    intro s nc ea r t h
    rw [smoLoop] at h
    split at h
    · obtain ⟨hr, ht⟩ := Prod.mk.injEq .. ▸ Option.some.injEq .. ▸ Except.ok.injEq .. ▸ h
      subst ht
      exact ⟨⟨s, hr.symm⟩, by simp, by simp⟩
    · simp at h
  | succ fuel ih =>
    intro s nc ea r t h
    rw [smoLoop] at h
    split at h
    · obtain ⟨hr, ht⟩ := Prod.mk.injEq .. ▸ Option.some.injEq .. ▸ Except.ok.injEq .. ▸ h
      subst ht
      exact ⟨⟨s, hr.symm⟩, by simp, by simp⟩
    · cases hsw : (if ea then sweepAll examine s
          else sweepActiveAux examine inLimits gapClosed (List.finRange n) s 0) with
      | error e => rw [hsw] at h; simp [Except.bind] at h
      | ok rr =>
        rw [hsw] at h
        simp only [Except.bind] at h
        cases hin : smoLoop examine inLimits gapClosed setB fuel rr.1 rr.2
            (nextExamineAll ea rr.2) with
        | error e => rw [hin] at h; simp [Except.map] at h
        | ok o =>
          rw [hin] at h
          cases o with
          | none => simp [Except.map] at h
          | some q =>
            simp only [Except.map, Option.map, Except.ok.injEq, Option.some.injEq] at h
            obtain ⟨hr, ht⟩ := Prod.mk.injEq .. ▸ h
            obtain ⟨hres, hhead, hchain⟩ := ih rr.1 rr.2 (nextExamineAll ea rr.2) q.1 q.2 hin
            subst ht
            refine ⟨hr ▸ hres, by simp, ?_⟩
            rw [List.chain'_cons']
            refine ⟨fun b hb => ?_, hchain⟩
            exact modeRule_of_next ea rr.2 b (hhead b hb)

lemma pC0_C : pC0.C = 1 := rfl

lemma pC0_tol : pC0.tol = 1 / 1000 := rfl

lemma rC0_a0 : rC0.alphas 0 = 1 := rfl

lemma rC0_a1 : rC0.alphas 1 = 1 := rfl

lemma rC0_bup : rC0.b_up = 0 := rfl

lemma rC0_blow : rC0.b_low = 0 := rfl

set_option maxHeartbeats 1000000 in
lemma exC_run1 : examineExampleC pC0 sC0 0 = .ok (true, rC0) := by
  norm_num [examineExampleC, examineCheckC, takeStepC, takeStepUpdateC, boundsC, etaC,
    a2C, clip, snapC, updateSetsC, thresholdScanC, pC0, sC0, rC0, floatMax,
    Function.update, List.finRange, List.ofFn, List.filter, List.foldl, Fin.sum_univ_two]
  rw [if_neg (by simp)]
  simp only [Except.ok.injEq, Prod.mk.injEq, CState.mk.injEq, true_and, and_true]
  and_intros <;> funext i <;> fin_cases i <;> norm_num [Function.update]

set_option maxHeartbeats 1000000 in
lemma exC_run2 : examineExampleC pC0 rC0 1 = .ok (false, rC0) := by
  norm_num [examineExampleC, examineCheckC, takeStepC, takeStepUpdateC, boundsC, etaC,
    a2C, clip, snapC, updateSetsC, thresholdScanC, pC0, rC0, floatMax,
    Function.update, List.finRange, List.ofFn, List.filter, List.foldl, Fin.sum_univ_two]

set_option maxHeartbeats 1000000 in
lemma exC_run3 : examineExampleC pC0 rC0 0 = .ok (false, rC0) := by
  norm_num [examineExampleC, examineCheckC, takeStepC, takeStepUpdateC, boundsC, etaC,
    a2C, clip, snapC, updateSetsC, thresholdScanC, pC0, rC0, floatMax,
    Function.update, List.finRange, List.ofFn, List.filter, List.foldl, Fin.sum_univ_two]

set_option maxHeartbeats 1000000 in
lemma smoC_run : smoC pC0 3 sC0 = .ok (some (rC0, [(true, 1), (false, 0), (true, 0)])) := by
  norm_num [smoC, smoLoop, sweepAll, sweepActiveAux, nextExamineAll, List.foldlM,
    List.finRange, List.ofFn, Except.bind, Except.map, Except.instMonad, Bind.bind,
    Pure.pure, Except.pure, Fin.mk_zero, Fin.mk_one,
    Fin.isValue, exC_run1, exC_run2, exC_run3, pC0_C, pC0_tol, rC0_a0, rC0_a1,
    rC0_bup, rC0_blow]
  norm_num [CState.mk.injEq, rC0]

set_option maxHeartbeats 1000000 in
lemma exR_run1 : examineExampleR pR0 sR0 0 = .ok (false, sR0) := by
  norm_num [examineExampleR, examineSelectR, takeStepR, pR0, sR0,
    Function.update, List.finRange, List.ofFn, Fin.sum_univ_two]
  all_goals try (and_intros <;> funext i <;> fin_cases i <;> norm_num [Function.update])

set_option maxHeartbeats 1000000 in
lemma exR_run2 : examineExampleR pR0 sR0 1 = .ok (false, sR0) := by
  norm_num [examineExampleR, examineSelectR, takeStepR, pR0, sR0,
    Function.update, List.finRange, List.ofFn, Fin.sum_univ_two]
  all_goals try (and_intros <;> funext i <;> fin_cases i <;> norm_num [Function.update])

set_option maxHeartbeats 1000000 in
lemma smoR_run : smoR pR0 1 sR0 = .ok (some (sR0, [(true, 0)])) := by
  norm_num [smoR, smoLoop, sweepAll, sweepActiveAux, nextExamineAll, List.foldlM,
    List.finRange, List.ofFn, Except.bind, Except.map, Except.instMonad, Bind.bind,
    Pure.pure, Except.pure, Fin.mk_zero, Fin.mk_one, Fin.isValue, exR_run1, exR_run2]
  norm_num [RState.mk.injEq, sR0]

lemma exR_sR6_I0 : ((1 : Fin 2) ∈ sR6.I0) = ((1 : Fin 2) ∈ ({0, 1} : Finset (Fin 2))) := rfl

lemma sR6_e1 : sR6.errors 1 = 1 := rfl

lemma sR6_p1 : sR6.alphas_p 1 = 0 := rfl

lemma sR6_n1 : sR6.alphas_n 1 = 1 / 2 := rfl

lemma sR6_blow : sR6.b_low = 1 := rfl

lemma sR6_bup : sR6.b_up = 1 := rfl

lemma sR6_bupidx : sR6.b_up_idx = some 0 := rfl

lemma sR6_blowidx : sR6.b_low_idx = some 0 := rfl

lemma pR0_tol : pR0.tol = 1 / 1000 := rfl

lemma pR0_eps : pR0.epsilon = 1 / 10 := rfl

lemma pR0_Cv : pR0.C = 1 := rfl

set_option maxHeartbeats 1000000 in
lemma hstepR6a : rCaseStep 1 (1 / 10) 2 (-(4 / 5)) 0 (1 / 2) lsR6a = lsR6b := by
  norm_num [rCaseStep, clip, lsR6a, lsR6b, RCaseState.mk.injEq,
    abs_of_nonneg, abs_of_nonpos, abs_zero]

set_option maxHeartbeats 1000000 in
lemma hstepR6b : rCaseStep 1 (1 / 10) 2 (-(4 / 5)) 0 (1 / 2) lsR6b = lsR6c := by
  norm_num [rCaseStep, clip, lsR6b, lsR6c, RCaseState.mk.injEq,
    abs_of_nonneg, abs_of_nonpos, abs_zero]

set_option maxHeartbeats 400000 in
lemma hloopR6 : rCaseLoop 1 (1 / 10) 2 (-(4 / 5)) 0 (1 / 2) 5
    ⟨0, 3 / 10, 0, 1 / 2, -1, false, false, false, false, false, false, []⟩ = lsR6c := by
  have h0 : (⟨0, 3 / 10, 0, 1 / 2, -1, false, false, false, false, false, false, []⟩ :
      RCaseState) = lsR6a := rfl
  rw [h0, rCaseLoop, if_neg (by rw [show lsR6a.finished = false from rfl]; simp), hstepR6a,
    rCaseLoop, if_neg (by rw [show lsR6b.finished = false from rfl]; simp), hstepR6b,
    rCaseLoop, if_pos (by rw [show lsR6c.finished = true from rfl])]

set_option maxHeartbeats 1000000 in
lemma takeStepR_sR6 : takeStepR pR0 sR6 0 1 = .ok (true, sR6out) := by
  norm_num [takeStepR, rCaseInit, etaR, pR0, sR6, sR2, hloopR6, lsR6c, takeStepUpdateR,
    snapR, updateSetsR, thresholdScanR, thresholdSpecialR, floatMax, Function.update,
    List.finRange, List.ofFn, List.filter, List.foldl, sR6out,
    abs_of_nonneg, abs_of_nonpos, abs_zero]
  rw [if_neg (by simp)]
  simp only [Except.ok.injEq, Prod.mk.injEq, RState.mk.injEq, true_and, and_true]
  and_intros <;> first
    | decide
    | (funext i; fin_cases i <;> norm_num [Function.update])

set_option maxHeartbeats 1000000 in
lemma exR_sR6 : examineExampleR pR0 sR6 1 = .ok (true, sR6out) := by
  norm_num [examineExampleR, examineSelectR, exR_sR6_I0, sR6_e1, sR6_p1, sR6_n1,
    sR6_blow, sR6_bup, sR6_bupidx, sR6_blowidx, pR0_tol, pR0_eps, pR0_Cv, takeStepR_sR6]

set_option maxHeartbeats 1000000 in
lemma hstepR2a : rCaseStep 1 (1 / 10) 2 (-(4 / 5)) 0 (1 / 2) lsR2a = lsR2b := by
  norm_num [rCaseStep, clip, lsR2a, lsR2b, RCaseState.mk.injEq,
    abs_of_nonneg, abs_of_nonpos, abs_zero]

set_option maxHeartbeats 1000000 in
lemma hstepR2b : rCaseStep 1 (1 / 10) 2 (-(4 / 5)) 0 (1 / 2) lsR2b = lsR2c := by
  norm_num [rCaseStep, clip, lsR2b, lsR2c, RCaseState.mk.injEq,
    abs_of_nonneg, abs_of_nonpos, abs_zero]

set_option maxHeartbeats 400000 in
lemma hloopR2 : rCaseLoop 1 (1 / 10) 2 (-(4 / 5)) 0 (1 / 2) 5
    ⟨0, 3 / 10, 0, 1 / 2, -(9999999999 / 10000000000), false, false, false, false,
      false, false, []⟩ = lsR2c := by
  have h0 : (⟨0, 3 / 10, 0, 1 / 2, -(9999999999 / 10000000000), false, false, false,
      false, false, false, []⟩ : RCaseState) = lsR2a := rfl
  rw [h0, rCaseLoop, if_neg (by rw [show lsR2a.finished = false from rfl]; simp), hstepR2a,
    rCaseLoop, if_neg (by rw [show lsR2b.finished = false from rfl]; simp), hstepR2b,
    rCaseLoop, if_pos (by rw [show lsR2c.finished = true from rfl])]

set_option maxHeartbeats 1000000 in
lemma takeStepR_sR2 : takeStepR pR0 sR2 0 1 = .ok (true, sR2out) := by
  norm_num [takeStepR, rCaseInit, etaR, pR0, sR2, hloopR2, lsR2c, takeStepUpdateR,
    snapR, updateSetsR, thresholdScanR, thresholdSpecialR, floatMax, Function.update,
    List.finRange, List.ofFn, List.filter, List.foldl, sR2out,
    abs_of_nonneg, abs_of_nonpos, abs_zero]
  rw [if_neg (by simp)]
  simp only [Except.ok.injEq, Prod.mk.injEq, RState.mk.injEq, true_and, and_true]
  and_intros <;> first
    | decide
    | (funext i; fin_cases i <;> norm_num [Function.update])

/-- C5: on termination of the outer driver (a run that returns within
its fuel), the bias is the midpoint of the final threshold pair, with
the classification sign `-(b_low + b_up)/2` and the regression sign
`(b_low + b_up)/2`. -/
theorem bias_is_threshold_midpoint_C5 :
    (∀ (n d : ℕ) (p : CParams n d) (fuel : ℕ) (s r : CState n d) (t : List (Bool × ℕ)),
      smoC p fuel s = .ok (some (r, t)) → r.b = -(r.b_low + r.b_up) / 2) ∧
    (∀ (n d : ℕ) (p : RParams n d) (fuel : ℕ) (s r : RState n d) (t : List (Bool × ℕ)),
      smoR p fuel s = .ok (some (r, t)) → r.b = (r.b_low + r.b_up) / 2) := by
  constructor
  · intro n d p fuel s r t h
    obtain ⟨⟨s0, hr⟩, -, -⟩ := smoLoop_result _ _ _ _ fuel s 0 true r t h
    subst hr
    rfl
  · intro n d p fuel s r t h
    obtain ⟨⟨s0, hr⟩, -, -⟩ := smoLoop_result _ _ _ _ fuel s 0 true r t h
    subst hr
    rfl

/-- C5 witness: the two-point classification run and the two-point
regression run both terminate within their fuel and end with the bias
equal to the (signed) midpoint of their final threshold pairs. -/
theorem bias_is_threshold_midpoint_C5_witness :
    smoC pC0 3 sC0 = Except.ok (some (rC0, [(true, 1), (false, 0), (true, 0)])) ∧
      smoR pR0 1 sR0 = Except.ok (some (sR0, [(true, 0)])) ∧
      rC0.b = -(rC0.b_low + rC0.b_up) / 2 ∧ sR0.b = (sR0.b_low + sR0.b_up) / 2 :=
  ⟨smoC_run, smoR_run,
    bias_is_threshold_midpoint_C5.1 2 1 pC0 3 sC0 rC0 _ smoC_run,
    bias_is_threshold_midpoint_C5.2 2 1 pR0 1 sR0 sR0 _ smoR_run⟩

/-- C3 (amended): the outer driver starts in full-sweep mode and its
sweep trace follows the rule: after a full sweep always switch to
active-set mode (whether or not it made updates); after an active-set
sweep with zero updates switch to full-sweep mode; after an active-set
sweep with at least one update stay in active-set mode. -/
theorem outer_driver_mode_transitions_C3 :
    (∀ (n d : ℕ) (p : CParams n d) (fuel : ℕ) (s r : CState n d) (t : List (Bool × ℕ)),
      smoC p fuel s = .ok (some (r, t)) →
        (∀ a, t.head? = some a → a.1 = true) ∧ t.Chain' modeRule) ∧
    (∀ (n d : ℕ) (p : RParams n d) (fuel : ℕ) (s r : RState n d) (t : List (Bool × ℕ)),
      smoR p fuel s = .ok (some (r, t)) →
        (∀ a, t.head? = some a → a.1 = true) ∧ t.Chain' modeRule) := by
  constructor
  · intro n d p fuel s r t h
    obtain ⟨-, hhead, hchain⟩ := smoLoop_result _ _ _ _ fuel s 0 true r t h
    exact ⟨hhead, hchain⟩
  · intro n d p fuel s r t h
    obtain ⟨-, hhead, hchain⟩ := smoLoop_result _ _ _ _ fuel s 0 true r t h
    exact ⟨hhead, hchain⟩

/-- C3 counterexample: on the two-point classification problem the
first (full) sweep makes one update, yet the driver switches to
active-set mode, so the claimed repeat-same-mode-on-progress rule fails
on the produced trace. -/
theorem outer_driver_mode_claim_counterexample_C3 :
    smoC pC0 3 sC0 = Except.ok (some (rC0, [(true, 1), (false, 0), (true, 0)])) ∧
      ¬ List.Chain' modeRuleClaim [(true, 1), (false, 0), (true, 0)] := by
  refine ⟨smoC_run, fun h => ?_⟩
  rw [List.chain'_cons'] at h
  exact absurd ((h.1 (false, 0) rfl).2.2 one_pos) (by simp)

/-- C3 witness: the amended rule applied to the concrete classification
run. -/
theorem outer_driver_mode_transitions_C3_witness :
    (∀ a, (([(true, 1), (false, 0), (true, 0)] : List (Bool × ℕ)).head? = some a →
        a.1 = true)) ∧
      ([(true, 1), (false, 0), (true, 0)] : List (Bool × ℕ)).Chain' modeRule :=
  outer_driver_mode_transitions_C3.1 2 1 pC0 3 sC0 rC0 [(true, 1), (false, 0), (true, 0)]
    smoC_run

lemma find?_first_of_pairwise {α : Type} [Preorder α] {q : α → Bool} :
    ∀ {l : List α}, l.Pairwise (· < ·) → ∀ {a : α}, l.find? q = some a →
      q a = true ∧ ∀ x ∈ l, x < a → q x = false := by
  intro l
  induction l with
  | nil => intro _ a h; simp at h
  | cons b t ih =>
    intro hp a h
    rw [List.find?_cons] at h
    rcases hq : q b with hqf | hqt
    · rw [hq] at h
      obtain ⟨h1, h2⟩ := ih (List.Pairwise.of_cons hp) h
      refine ⟨h1, fun x hx hxa => ?_⟩
      rcases List.mem_cons.mp hx with rfl | hxt
      · exact hq
      · exact h2 x hxt hxa
    · rw [hq] at h
      simp only [Option.some.injEq] at h
      subst h
      refine ⟨hq, fun x hx hxa => ?_⟩
      rcases List.mem_cons.mp hx with rfl | hxt
      · exact absurd hxa (lt_irrefl _)
      · exact absurd hxa (asymm ((List.pairwise_cons.mp hp).1 x hxt))

/-- C10: the classification engine's constructor succeeds exactly when
the label vector has at least one `+1` and at least one `-1` label, and
on success `b_up_idx` is the first `+1` index and `b_low_idx` the first
`-1` index. -/
theorem classifier_init_requires_both_labels_C10 :
    ∀ (n d : ℕ) (p : CParams n d),
      ((initC p).isSome ↔ (∃ i, p.y i = 1) ∧ (∃ i, p.y i = -1)) ∧
      (∀ s, initC p = some s →
        (∀ u, s.b_up_idx = some u → p.y u = 1 ∧ ∀ j, j < u → p.y j ≠ 1) ∧
        (∀ v, s.b_low_idx = some v → p.y v = -1 ∧ ∀ j, j < v → p.y j ≠ -1)) := by
  intro n d p
  constructor
  · rw [show (initC p).isSome ↔
        ((List.finRange n).find? (fun i => decide (p.y i = 1))).isSome ∧
        ((List.finRange n).find? (fun i => decide (p.y i = -1))).isSome from ?_]
    · rw [List.find?_isSome, List.find?_isSome]
      simp [List.mem_finRange]
    · unfold initC
      cases (List.finRange n).find? (fun i => decide (p.y i = 1)) <;>
        cases (List.finRange n).find? (fun i => decide (p.y i = -1)) <;> simp
  · intro s hs
    unfold initC at hs
    cases h1 : (List.finRange n).find? (fun i => decide (p.y i = 1)) with
    | none => rw [h1] at hs; simp at hs
    | some up =>
      cases h2 : (List.finRange n).find? (fun i => decide (p.y i = -1)) with
      | none => rw [h1, h2] at hs; simp at hs
      | some low =>
        rw [h1, h2] at hs
        simp only [Option.some.injEq] at hs
        subst hs
        constructor
        · intro u hu
          simp only [Option.some.injEq] at hu
          subst hu
          obtain ⟨hq, hfirst⟩ := find?_first_of_pairwise (List.pairwise_lt_finRange n) h1
          refine ⟨of_decide_eq_true hq, fun j hj hy => ?_⟩
          have := hfirst j (List.mem_finRange j) hj
          rw [decide_eq_false_iff_not] at this
          exact this hy
        · intro v hv
          simp only [Option.some.injEq] at hv
          subst hv
          obtain ⟨hq, hfirst⟩ := find?_first_of_pairwise (List.pairwise_lt_finRange n) h2
          refine ⟨of_decide_eq_true hq, fun j hj hy => ?_⟩
          have := hfirst j (List.mem_finRange j) hj
          rw [decide_eq_false_iff_not] at this
          exact this hy

/-- C10 witness: construction succeeds on the `±1`-labelled data `pC0`
and fails on the all-positive data `pC10`. -/
theorem classifier_init_requires_both_labels_C10_witness :
    (initC pC0).isSome ∧ initC pC10 = none := by
  constructor
  · exact (classifier_init_requires_both_labels_C10 2 1 pC0).1.mpr
      ⟨⟨0, by norm_num [pC0]⟩, ⟨1, by norm_num [pC0]⟩⟩
  · rw [← Option.not_isSome_iff_eq_none]
    intro h
    obtain ⟨-, ⟨i, hi⟩⟩ := (classifier_init_requires_both_labels_C10 2 1 pC10).1.mp h
    fin_cases i <;> norm_num [pC10, pC0] at hi

/-- C4: in the classification pair update, a numerically negligible
`alpha2` change (relative threshold `1e-12`) makes `_take_step` return
false with the whole engine state unchanged. -/
theorem negligible_change_is_noop_C4 :
    ∀ (n d : ℕ) (p : CParams n d) (s : CState n d) (i1 i2 : Fin n),
      i1 ≠ i2 →
      (boundsC p s i1 i2).1 ≠ (boundsC p s i1 i2).2 →
      |a2C p s i1 i2 - s.alphas i2| <
        1 / 10 ^ 12 * (a2C p s i1 i2 + s.alphas i2 + 1 / 10 ^ 12) →
      takeStepC p s i1 i2 = .ok (false, s) := by
  intro n d p s i1 i2 h12 hLH hsmall
  unfold takeStepC
  rw [if_neg h12]
  simp only []
  rw [if_neg hLH, if_pos hsmall]

/-- C4 witness: with equal cached errors the computed `a2` equals
`alpha2 = 0` and the update is rejected without touching the state. -/
theorem negligible_change_is_noop_C4_witness :
    (1 : Fin 2) ≠ 0 ∧ (boundsC pC0 sC4 1 0).1 ≠ (boundsC pC0 sC4 1 0).2 ∧
      |a2C pC0 sC4 1 0 - sC4.alphas 0| <
        1 / 10 ^ 12 * (a2C pC0 sC4 1 0 + sC4.alphas 0 + 1 / 10 ^ 12) ∧
      takeStepC pC0 sC4 1 0 = .ok (false, sC4) := by
  have h1 : (1 : Fin 2) ≠ 0 := by decide
  have h2 : (boundsC pC0 sC4 1 0).1 ≠ (boundsC pC0 sC4 1 0).2 := by
    norm_num [boundsC, pC0, sC4, sC0]
  have h3 : |a2C pC0 sC4 1 0 - sC4.alphas 0| <
      1 / 10 ^ 12 * (a2C pC0 sC4 1 0 + sC4.alphas 0 + 1 / 10 ^ 12) := by
    norm_num [a2C, boundsC, etaC, clip, pC0, sC4, sC0]
  exact ⟨h1, h2, h3, negligible_change_is_noop_C4 2 1 pC0 sC4 1 0 h1 h2 h3⟩

/-- C7 (amended): when `eta > 0` the new `alpha2` is the closed-form
value clipped into `[L, H]`; when `eta <= 0` the endpoint whose
restricted-objective value is better by more than the `1e-12` tie band
is chosen, and any tie or near-tie within that band keeps the current
`alpha2` (the original claim's exact-tie rule fails, see the
counterexample). -/
theorem pair_update_a2_formula_C7 :
    ∀ (n d : ℕ) (p : CParams n d) (s : CState n d) (i1 i2 : Fin n),
      (0 < etaC p i1 i2 →
        a2C p s i1 i2 = clip (s.alphas i2 + p.y i2 * (s.errors i1 - s.errors i2) /
          etaC p i1 i2) (boundsC p s i1 i2).1 (boundsC p s i1 i2).2) ∧
      (etaC p i1 i2 ≤ 0 →
        a2C p s i1 i2 =
          if p.y i2 * (s.errors i1 - s.errors i2) * (boundsC p s i1 i2).1 >
              p.y i2 * (s.errors i1 - s.errors i2) * (boundsC p s i1 i2).2 + 1 / 10 ^ 12 then
            (boundsC p s i1 i2).1
          else if p.y i2 * (s.errors i1 - s.errors i2) * (boundsC p s i1 i2).1 <
              p.y i2 * (s.errors i1 - s.errors i2) * (boundsC p s i1 i2).2 - 1 / 10 ^ 12 then
            (boundsC p s i1 i2).2
          else s.alphas i2) := by
  intro n d p s i1 i2
  constructor
  · intro h
    simp only [a2C]
    rw [if_pos h]
  · intro h
    simp only [a2C]
    rw [if_neg (not_lt.mpr h)]

/-- C7 counterexample: with `eta = 0` and an endpoint-objective margin
of `7.5e-13` the code keeps `alpha2 = 1/4`, while the claim's rule
(pick the strictly better endpoint, ties keep the current value) picks
the endpoint `L = 0`. -/
theorem pair_update_a2_formula_counterexample_C7 :
    etaC pC7 0 1 ≤ 0 ∧ a2C pC7 sC7 0 1 = 1 / 4 ∧ claimA2C pC7 sC7 0 1 = 0 := by
  refine ⟨by norm_num [etaC, pC7, pC0], ?_, ?_⟩
  · norm_num [a2C, boundsC, etaC, clip, pC7, sC7, pC0, sC0]
  · norm_num [claimA2C, boundsC, etaC, clip, pC7, sC7, pC0, sC0]

/-- C7 witness: the positive-`eta` clause applied on `pC0` from `sC0`
(where `eta = 2`), and the tie-band clause applied on `pC7` from `sC7`
(where `eta = 0`). -/
theorem pair_update_a2_formula_C7_witness :
    a2C pC0 sC0 1 0 = clip (sC0.alphas 0 + pC0.y 0 * (sC0.errors 1 - sC0.errors 0) /
        etaC pC0 1 0) (boundsC pC0 sC0 1 0).1 (boundsC pC0 sC0 1 0).2 ∧
      a2C pC7 sC7 0 1 =
        if pC7.y 1 * (sC7.errors 0 - sC7.errors 1) * (boundsC pC7 sC7 0 1).1 >
            pC7.y 1 * (sC7.errors 0 - sC7.errors 1) * (boundsC pC7 sC7 0 1).2 + 1 / 10 ^ 12 then
          (boundsC pC7 sC7 0 1).1
        else if pC7.y 1 * (sC7.errors 0 - sC7.errors 1) * (boundsC pC7 sC7 0 1).1 <
            pC7.y 1 * (sC7.errors 0 - sC7.errors 1) * (boundsC pC7 sC7 0 1).2 - 1 / 10 ^ 12 then
          (boundsC pC7 sC7 0 1).2
        else sC7.alphas 1 :=
  ⟨(pair_update_a2_formula_C7 2 1 pC0 sC0 1 0).1 (by norm_num [etaC, pC0]),
    (pair_update_a2_formula_C7 2 1 pC7 sC7 0 1).2 (by norm_num [etaC, pC7, pC0])⟩

/-- C6 (amended): the selector is a no-op on a free index whose
optimality gap is within `2*tol`, where the classification gap uses the
raw cached error but the regression gap uses the `epsilon`-shifted
error (`E - epsilon` when the plus multiplier is free, `E + epsilon`
when the minus multiplier is free); the original claim's raw-error gap
fails for regression, see the counterexample. -/
theorem free_optimal_examine_is_noop_C6 :
    (∀ (n d : ℕ) (p : CParams n d) (s : CState n d) (i2 : Fin n),
      i2 ∈ s.I0 → s.b_low - s.errors i2 ≤ 2 * p.tol →
      s.errors i2 - s.b_up ≤ 2 * p.tol →
      examineExampleC p s i2 = .ok (false, s)) ∧
    (∀ (n d : ℕ) (p : RParams n d) (s : RState n d) (i2 : Fin n),
      i2 ∈ s.I0 →
      (0 < s.alphas_p i2 ∧ s.alphas_p i2 < p.C →
        s.b_low - (s.errors i2 - p.epsilon) ≤ 2 * p.tol ∧
        (s.errors i2 - p.epsilon) - s.b_up ≤ 2 * p.tol) →
      (¬(0 < s.alphas_p i2 ∧ s.alphas_p i2 < p.C) →
        0 < s.alphas_n i2 ∧ s.alphas_n i2 < p.C →
        s.b_low - (s.errors i2 + p.epsilon) ≤ 2 * p.tol ∧
        (s.errors i2 + p.epsilon) - s.b_up ≤ 2 * p.tol) →
      examineExampleR p s i2 = .ok (false, s)) := by
  constructor
  · intro n d p s i2 hmem hlow hup
    unfold examineExampleC
    rw [if_pos hmem]
    unfold examineCheckC
    rw [if_pos]
    push_neg
    exact ⟨fun _ => hlow, fun _ => hup⟩
  · intro n d p s i2 hmem hp hn
    have hsel : examineSelectR p s i2 (s.errors i2) (s.alphas_p i2) (s.alphas_n i2) =
        .ok none := by
      unfold examineSelectR
      rw [if_pos hmem]
      by_cases hap : 0 < s.alphas_p i2 ∧ s.alphas_p i2 < p.C
      · rw [if_pos hap, if_neg (not_lt.mpr (hp hap).1), if_neg (not_lt.mpr (hp hap).2)]
      · rw [if_neg hap]
        by_cases han : 0 < s.alphas_n i2 ∧ s.alphas_n i2 < p.C
        · rw [if_pos han, if_neg (not_lt.mpr (hn hap han).1),
            if_neg (not_lt.mpr (hn hap han).2)]
        · rw [if_neg han]
    unfold examineExampleR
    rw [if_pos hmem]
    simp only [hsel]

set_option maxHeartbeats 1000000 in
/-- C6 counterexample: a free regression index whose raw-error gaps are
both zero (well within `2*tol`), on which the selector nevertheless
runs a successful pair update and returns true. -/
theorem free_optimal_examine_counterexample_C6 :
    (1 : Fin 2) ∈ sR6.I0 ∧ sR6.b_low - sR6.errors 1 ≤ 2 * pR0.tol ∧
      sR6.errors 1 - sR6.b_up ≤ 2 * pR0.tol ∧
      (examineExampleR pR0 sR6 1).toOption.map Prod.fst = some true := by
  refine ⟨by decide, by norm_num [sR6, sR2, pR0], by norm_num [sR6, sR2, pR0], ?_⟩
  rw [exR_sR6]
  rfl

/-- C6 witness: the no-op conclusion at a concrete free classification
index and a concrete free regression index, both optimal for the
(amended) shifted gaps. -/
theorem free_optimal_examine_is_noop_C6_witness :
    examineExampleC pC0 sC6 0 = .ok (false, sC6) ∧
      examineExampleR pR0 sR6b 1 = .ok (false, sR6b) := by
  constructor
  · exact free_optimal_examine_is_noop_C6.1 2 1 pC0 sC6 0 (by decide)
      (by norm_num [sC6, sC0, pC0]) (by norm_num [sC6, sC0, pC0])
  · exact free_optimal_examine_is_noop_C6.2 2 1 pR0 sR6b 1 (by decide)
      (by intro h; norm_num [sR6b, sR6, sR2, pR0] at h)
      (by intro h1 h2; norm_num [sR6b, sR6, sR2, pR0])

lemma clip_mem {x l h : ℚ} (hlh : l ≤ h) : l ≤ clip x l h ∧ clip x l h ≤ h :=
  ⟨le_max_left l _, max_le hlh (min_le_right x h)⟩

lemma snapC_mem {C a : ℚ} (hC : 0 ≤ C) (h0 : 0 ≤ a) (h1 : a ≤ C) :
    0 ≤ snapC C a ∧ snapC C a ≤ C := by
  unfold snapC
  split_ifs <;> constructor <;> linarith

lemma snapC_close {C a : ℚ} (h0 : 0 ≤ a) (h1 : a ≤ C) :
    |snapC C a - a| ≤ 1 / 10 ^ 8 * C := by
  have hC : 0 ≤ C := h0.trans h1
  unfold snapC
  split_ifs with hhi hlo <;> rw [abs_le] <;> constructor <;> linarith

lemma snapC_range (C a : ℚ) :
    snapC C a = 0 ∨ snapC C a = C ∨
      (1 / 10 ^ 8 * C ≤ snapC C a ∧ snapC C a ≤ C - 1 / 10 ^ 8 * C) := by
  unfold snapC
  split_ifs with hhi hlo
  · exact Or.inr (Or.inl rfl)
  · exact Or.inl rfl
  · exact Or.inr (Or.inr ⟨not_lt.mp hlo, not_lt.mp hhi⟩)

lemma snapR_mem {C a : ℚ} (hC : 0 ≤ C) (h0 : 0 ≤ a) (h1 : a ≤ C) :
    0 ≤ snapR C a ∧ snapR C a ≤ C := by
  unfold snapR
  split_ifs <;> constructor <;> linarith

lemma snapR_close {C a : ℚ} (h0 : 0 ≤ a) (h1 : a ≤ C) :
    |snapR C a - a| ≤ 1 / 10 ^ 10 * C := by
  have hC : 0 ≤ C := h0.trans h1
  unfold snapR
  split_ifs with hhi hlo <;> rw [abs_le] <;> constructor <;> linarith

lemma snapR_range (C a : ℚ) :
    snapR C a = 0 ∨ snapR C a = C ∨
      (1 / 10 ^ 10 * C < snapR C a ∧ snapR C a ≤ C - 1 / 10 ^ 10 * C) := by
  unfold snapR
  split_ifs with hhi hlo
  · exact Or.inr (Or.inl rfl)
  · exact Or.inl rfl
  · exact Or.inr (Or.inr ⟨not_le.mp hlo, not_lt.mp hhi⟩)

lemma snapR_zero {C : ℚ} (hC : 0 ≤ C) : snapR C 0 = 0 := by
  unfold snapR
  have h1 : ¬((0 : ℚ) > C - 1 / 10 ^ 10 * C) := by push_neg; linarith
  have h2 : (0 : ℚ) ≤ 1 / 10 ^ 10 * C := by positivity
  rw [if_neg h1, if_pos h2]

lemma boundsC_le {n d : ℕ} {p : CParams n d} {s : CState n d} {i1 i2 : Fin n}
    (hbox : CBox p s) : (boundsC p s i1 i2).1 ≤ (boundsC p s i1 i2).2 := by
  obtain ⟨h10, h1C⟩ := hbox i1
  obtain ⟨h20, h2C⟩ := hbox i2
  unfold boundsC
  split_ifs <;> simp only [max_le_iff, le_min_iff, le_max_iff, min_le_iff] <;>
    constructor <;> constructor <;> first
      | linarith
      | (left; linarith)
      | (right; linarith)

lemma boundsC_nonneg {n d : ℕ} (p : CParams n d) (s : CState n d) (i1 i2 : Fin n) :
    0 ≤ (boundsC p s i1 i2).1 := by
  unfold boundsC
  split_ifs <;> exact le_max_left 0 _

lemma boundsC_le_C {n d : ℕ} (p : CParams n d) (s : CState n d) (i1 i2 : Fin n) :
    (boundsC p s i1 i2).2 ≤ p.C := by
  unfold boundsC
  split_ifs <;> exact min_le_left _ _

lemma a2C_cases {n d : ℕ} {p : CParams n d} {s : CState n d} (i1 i2 : Fin n)
    (hbox : CBox p s) :
    ((boundsC p s i1 i2).1 ≤ a2C p s i1 i2 ∧ a2C p s i1 i2 ≤ (boundsC p s i1 i2).2) ∨
      a2C p s i1 i2 = s.alphas i2 := by
  have hlh := @boundsC_le _ _ p s i1 i2 hbox
  simp only [a2C]
  split_ifs
  · exact Or.inl (clip_mem hlh)
  · exact Or.inl ⟨le_refl _, hlh⟩
  · exact Or.inl ⟨hlh, le_refl _⟩
  · exact Or.inr rfl

lemma a2C_box {n d : ℕ} {p : CParams n d} {s : CState n d} (i1 i2 : Fin n)
    (hbox : CBox p s) : 0 ≤ a2C p s i1 i2 ∧ a2C p s i1 i2 ≤ p.C := by
  rcases a2C_cases i1 i2 hbox with ⟨hl, hh⟩ | heq
  · exact ⟨(boundsC_nonneg p s i1 i2).trans hl, hh.trans (boundsC_le_C p s i1 i2)⟩
  · rw [heq]
    exact hbox i2

lemma takeStepC_ok_true {n d : ℕ} {p : CParams n d} {s : CState n d} {i1 i2 : Fin n}
    {s1 : CState n d} (h : takeStepC p s i1 i2 = .ok (true, s1)) :
    i1 ≠ i2 ∧ s1 = takeStepUpdateC p s i1 i2 (a2C p s i1 i2) := by
  by_cases h12 : i1 = i2
  · rw [takeStepC, if_pos h12] at h
    exact absurd h (by simp)
  · rw [takeStepC, if_neg h12] at h
    simp only [] at h
    split_ifs at h with h2 h3 h4 <;> simp at h
    exact ⟨h12, h.symm⟩

lemma takeStepUpdateC_alphas {n d : ℕ} (p : CParams n d) (s : CState n d)
    (i1 i2 : Fin n) (a2 : ℚ) :
    (takeStepUpdateC p s i1 i2 a2).alphas =
      Function.update (Function.update s.alphas i1
        (snapC p.C (s.alphas i1 + p.y i1 * p.y i2 * (s.alphas i2 - a2)))) i2
        (snapC p.C a2) := rfl

lemma rCaseStep_inv {C eps eta gamma o2p o2n : ℚ} {st : RCaseState} (hC : 0 ≤ C)
    (hinv : LInv C gamma st) :
    LInv C gamma (rCaseStep C eps eta gamma o2p o2n st) := by
  obtain ⟨⟨h1p0, h1pC⟩, ⟨h1n0, h1nC⟩, ⟨h2p0, h2pC⟩, ⟨h2n0, h2nC⟩⟩ := hinv.box
  have hgam := hinv.gam
  have lift : ∀ (u : RCaseState) (x : ℚ), LInv C gamma u → LInv C gamma { u with dE := x } :=
    fun u x h => ⟨h.box, h.compl, h.gam, h.c1pos, h.c4neg, h.f1, h.f2, h.f3, h.f4, h.nd, h.sub⟩
  unfold rCaseStep
  apply lift
  by_cases hc1 : ¬st.c1 = true ∧ (st.a1p > 0 ∨ (st.a1n = 0 ∧ st.dE > 0)) ∧
      (st.a2p > 0 ∨ (st.a2n = 0 ∧ st.dE < 0))
  · rw [if_pos hc1]
    obtain ⟨hnc, hd1, hd2⟩ := hc1
    have h1n : st.a1n = 0 := by
      rcases hd1 with hp | ⟨hz, _⟩
      · rcases hinv.compl.1 with h | h
        · linarith
        · exact h
      · exact hz
    have h2n : st.a2n = 0 := by
      rcases hd2 with hp | ⟨hz, _⟩
      · rcases hinv.compl.2 with h | h
        · linarith
        · exact h
      · exact hz
    have hgv : gamma = st.a1p + st.a2p := by rw [← hgam, h1n, h2n]; ring
    have hgpos : 0 < gamma := by
      rcases hd1 with hp | ⟨_, hdE⟩
      · linarith
      · rcases hd2 with hp2 | ⟨_, hdE2⟩
        · linarith
        · linarith
    have hfires : (1 : ℕ) ∉ st.fires := fun hm => hnc (hinv.f1.mpr hm)
    have hndapp : (st.fires ++ [1]).Nodup := by
      rw [List.nodup_append]
      exact ⟨hinv.nd, List.nodup_singleton 1, by simpa [List.disjoint_singleton] using hfires⟩
    have hsubapp : ∀ x ∈ st.fires ++ [1], x = 1 ∨ x = 2 ∨ x = 3 ∨ x = 4 := by
      intro x hx
      rcases List.mem_append.mp hx with hx | hx
      · exact hinv.sub x hx
      · simp at hx
        exact Or.inl hx
    by_cases hLH : max 0 (gamma - C) < min C gamma
    · rw [if_pos hLH]
      simp only []
      have ha2 : max 0 (gamma - C) ≤
            (if eta > 0 then clip (st.a2p - st.dE / eta) (max 0 (gamma - C)) (min C gamma)
              else if -(max 0 (gamma - C)) * st.dE > -(min C gamma) * st.dE
                then max 0 (gamma - C) else min C gamma) ∧
          (if eta > 0 then clip (st.a2p - st.dE / eta) (max 0 (gamma - C)) (min C gamma)
              else if -(max 0 (gamma - C)) * st.dE > -(min C gamma) * st.dE
                then max 0 (gamma - C) else min C gamma) ≤ min C gamma := by
        split_ifs
        · exact clip_mem hLH.le
        · exact ⟨le_refl _, hLH.le⟩
        · exact ⟨hLH.le, le_refl _⟩
      set a2v := (if eta > 0 then clip (st.a2p - st.dE / eta) (max 0 (gamma - C)) (min C gamma)
        else if -(max 0 (gamma - C)) * st.dE > -(min C gamma) * st.dE
          then max 0 (gamma - C) else min C gamma) with ha2v
      obtain ⟨ha2l, ha2h⟩ := ha2
      have hL0 : (0 : ℚ) ≤ max 0 (gamma - C) := le_max_left 0 _
      have hLg : gamma - C ≤ max 0 (gamma - C) := le_max_right 0 _
      have hHC : min C gamma ≤ C := min_le_left _ _
      have hHg : min C gamma ≤ gamma := min_le_right _ _
      have ha20 : 0 ≤ a2v := hL0.trans ha2l
      have ha2C : a2v ≤ C := ha2h.trans hHC
      have ha10 : 0 ≤ st.a1p - (a2v - st.a2p) := by linarith
      have ha1C : st.a1p - (a2v - st.a2p) ≤ C := by linarith
      split_ifs with hupd
      · exact ⟨⟨⟨ha10, ha1C⟩, ⟨h1n0, h1nC⟩, ⟨ha20, ha2C⟩, ⟨h2n0, h2nC⟩⟩,
          ⟨Or.inr h1n, Or.inr h2n⟩,
          by show st.a1p - (a2v - st.a2p) - st.a1n + a2v - st.a2n = gamma
             rw [h1n, h2n]; linarith,
          fun _ => hgpos, fun hcc => hinv.c4neg hcc,
          by simp, by show st.c2 = true ↔ 2 ∈ st.fires ++ [1]; simp [hinv.f2],
          by show st.c3 = true ↔ 3 ∈ st.fires ++ [1]; simp [hinv.f3],
          by show st.c4 = true ↔ 4 ∈ st.fires ++ [1]; simp [hinv.f4],
          hndapp, hsubapp⟩
      · exact ⟨⟨⟨h1p0, h1pC⟩, ⟨h1n0, h1nC⟩, ⟨h2p0, h2pC⟩, ⟨h2n0, h2nC⟩⟩,
          hinv.compl, hgam, fun _ => hgpos, fun hcc => hinv.c4neg hcc,
          by simp, by show st.c2 = true ↔ 2 ∈ st.fires ++ [1]; simp [hinv.f2],
          by show st.c3 = true ↔ 3 ∈ st.fires ++ [1]; simp [hinv.f3],
          by show st.c4 = true ↔ 4 ∈ st.fires ++ [1]; simp [hinv.f4],
          hndapp, hsubapp⟩
    · rw [if_neg hLH]
      exact ⟨⟨⟨h1p0, h1pC⟩, ⟨h1n0, h1nC⟩, ⟨h2p0, h2pC⟩, ⟨h2n0, h2nC⟩⟩,
        hinv.compl, hgam, fun _ => hgpos, fun hcc => hinv.c4neg hcc,
        by simp, by show st.c2 = true ↔ 2 ∈ st.fires ++ [1]; simp [hinv.f2],
        by show st.c3 = true ↔ 3 ∈ st.fires ++ [1]; simp [hinv.f3],
        by show st.c4 = true ↔ 4 ∈ st.fires ++ [1]; simp [hinv.f4],
        hndapp, hsubapp⟩
  · rw [if_neg hc1]
    by_cases hc2 : ¬st.c2 = true ∧ (st.a1p > 0 ∨ (st.a1n = 0 ∧ st.dE > 2 * eps)) ∧
        (st.a2n > 0 ∨ (st.a2p = 0 ∧ st.dE > 2 * eps))
    · rw [if_pos hc2]
      obtain ⟨hnc, hd1, hd2⟩ := hc2
      have h1n : st.a1n = 0 := by
        rcases hd1 with hp | ⟨hz, _⟩
        · rcases hinv.compl.1 with h | h
          · linarith
          · exact h
        · exact hz
      have h2p : st.a2p = 0 := by
        rcases hd2 with hp | ⟨hz, _⟩
        · rcases hinv.compl.2 with h | h
          · exact h
          · linarith
        · exact hz
      have hgv : gamma = st.a1p - st.a2n := by rw [← hgam, h1n, h2p]; ring
      have hfires : (2 : ℕ) ∉ st.fires := fun hm => hnc (hinv.f2.mpr hm)
      have hndapp : (st.fires ++ [2]).Nodup := by
        rw [List.nodup_append]
        exact ⟨hinv.nd, List.nodup_singleton 2, by simpa [List.disjoint_singleton] using hfires⟩
      have hsubapp : ∀ x ∈ st.fires ++ [2], x = 1 ∨ x = 2 ∨ x = 3 ∨ x = 4 := by
        intro x hx
        rcases List.mem_append.mp hx with hx | hx
        · exact hinv.sub x hx
        · simp at hx
          exact Or.inr (Or.inl hx)
      by_cases hLH : max 0 (-gamma) < min C (-gamma + C)
      · rw [if_pos hLH]
        simp only []
        have ha2 : max 0 (-gamma) ≤
              (if eta > 0 then clip (st.a2n + (st.dE - 2 * eps) / eta) (max 0 (-gamma)) (min C (-gamma + C))
                else if max 0 (-gamma) * (-(2 * eps) + st.dE) > min C (-gamma + C) * (-(2 * eps) + st.dE)
                  then max 0 (-gamma) else min C (-gamma + C)) ∧
            (if eta > 0 then clip (st.a2n + (st.dE - 2 * eps) / eta) (max 0 (-gamma)) (min C (-gamma + C))
                else if max 0 (-gamma) * (-(2 * eps) + st.dE) > min C (-gamma + C) * (-(2 * eps) + st.dE)
                  then max 0 (-gamma) else min C (-gamma + C)) ≤ min C (-gamma + C) := by
          split_ifs
          · exact clip_mem hLH.le
          · exact ⟨le_refl _, hLH.le⟩
          · exact ⟨hLH.le, le_refl _⟩
        set a2v := (if eta > 0 then clip (st.a2n + (st.dE - 2 * eps) / eta) (max 0 (-gamma)) (min C (-gamma + C))
          else if max 0 (-gamma) * (-(2 * eps) + st.dE) > min C (-gamma + C) * (-(2 * eps) + st.dE)
            then max 0 (-gamma) else min C (-gamma + C)) with ha2v
        obtain ⟨ha2l, ha2h⟩ := ha2
        have hL0 : (0 : ℚ) ≤ max 0 (-gamma) := le_max_left 0 _
        have hLg : -gamma ≤ max 0 (-gamma) := le_max_right 0 _
        have hHC : min C (-gamma + C) ≤ C := min_le_left _ _
        have hHg : min C (-gamma + C) ≤ -gamma + C := min_le_right _ _
        have ha20 : 0 ≤ a2v := hL0.trans ha2l
        have ha2C : a2v ≤ C := ha2h.trans hHC
        have ha10 : 0 ≤ st.a1p + (a2v - st.a2n) := by
          have : st.a2n - st.a1p ≤ a2v := by linarith
          linarith
        have ha1C : st.a1p + (a2v - st.a2n) ≤ C := by linarith
        split_ifs with hupd
        · exact ⟨⟨⟨ha10, ha1C⟩, ⟨h1n0, h1nC⟩, ⟨h2p0, h2pC⟩, ⟨ha20, ha2C⟩⟩,
            ⟨Or.inr h1n, Or.inl h2p⟩,
            by show st.a1p + (a2v - st.a2n) - st.a1n + st.a2p - a2v = gamma
               rw [h1n, h2p]; linarith,
            fun hcc => hinv.c1pos hcc, fun hcc => hinv.c4neg hcc,
            by show st.c1 = true ↔ 1 ∈ st.fires ++ [2]; simp [hinv.f1],
            by simp,
            by show st.c3 = true ↔ 3 ∈ st.fires ++ [2]; simp [hinv.f3],
            by show st.c4 = true ↔ 4 ∈ st.fires ++ [2]; simp [hinv.f4],
            hndapp, hsubapp⟩
        · exact ⟨⟨⟨h1p0, h1pC⟩, ⟨h1n0, h1nC⟩, ⟨h2p0, h2pC⟩, ⟨h2n0, h2nC⟩⟩,
            hinv.compl, hgam, fun hcc => hinv.c1pos hcc, fun hcc => hinv.c4neg hcc,
            by show st.c1 = true ↔ 1 ∈ st.fires ++ [2]; simp [hinv.f1],
            by simp,
            by show st.c3 = true ↔ 3 ∈ st.fires ++ [2]; simp [hinv.f3],
            by show st.c4 = true ↔ 4 ∈ st.fires ++ [2]; simp [hinv.f4],
            hndapp, hsubapp⟩
      · rw [if_neg hLH]
        exact ⟨⟨⟨h1p0, h1pC⟩, ⟨h1n0, h1nC⟩, ⟨h2p0, h2pC⟩, ⟨h2n0, h2nC⟩⟩,
          hinv.compl, hgam, fun hcc => hinv.c1pos hcc, fun hcc => hinv.c4neg hcc,
          by show st.c1 = true ↔ 1 ∈ st.fires ++ [2]; simp [hinv.f1],
          by simp,
          by show st.c3 = true ↔ 3 ∈ st.fires ++ [2]; simp [hinv.f3],
          by show st.c4 = true ↔ 4 ∈ st.fires ++ [2]; simp [hinv.f4],
          hndapp, hsubapp⟩
    · rw [if_neg hc2]
      by_cases hc3 : ¬st.c3 = true ∧ (st.a1n > 0 ∨ (st.a1p = 0 ∧ st.dE < -(2 * eps))) ∧
          (st.a2p > 0 ∨ (st.a2n = 0 ∧ st.dE < -(2 * eps)))
      · rw [if_pos hc3]
        obtain ⟨hnc, hd1, hd2⟩ := hc3
        have h1p : st.a1p = 0 := by
          rcases hd1 with hp | ⟨hz, _⟩
          · rcases hinv.compl.1 with h | h
            · exact h
            · linarith
          · exact hz
        have h2n : st.a2n = 0 := by
          rcases hd2 with hp | ⟨hz, _⟩
          · rcases hinv.compl.2 with h | h
            · linarith
            · exact h
          · exact hz
        have hgv : gamma = st.a2p - st.a1n := by rw [← hgam, h1p, h2n]; ring
        have hfires : (3 : ℕ) ∉ st.fires := fun hm => hnc (hinv.f3.mpr hm)
        have hndapp : (st.fires ++ [3]).Nodup := by
          rw [List.nodup_append]
          exact ⟨hinv.nd, List.nodup_singleton 3, by simpa [List.disjoint_singleton] using hfires⟩
        have hsubapp : ∀ x ∈ st.fires ++ [3], x = 1 ∨ x = 2 ∨ x = 3 ∨ x = 4 := by
          intro x hx
          rcases List.mem_append.mp hx with hx | hx
          · exact hinv.sub x hx
          · simp at hx
            exact Or.inr (Or.inr (Or.inl hx))
        by_cases hLH : max 0 gamma < min C (C + gamma)
        · rw [if_pos hLH]
          simp only []
          have ha2 : max 0 gamma ≤
                (if eta > 0 then clip (st.a2p - (st.dE + 2 * eps) / eta) (max 0 gamma) (min C (C + gamma))
                  else if -(max 0 gamma) * (2 * eps + st.dE) > -(min C (C + gamma)) * (2 * eps + st.dE)
                    then max 0 gamma else min C (C + gamma)) ∧
              (if eta > 0 then clip (st.a2p - (st.dE + 2 * eps) / eta) (max 0 gamma) (min C (C + gamma))
                  else if -(max 0 gamma) * (2 * eps + st.dE) > -(min C (C + gamma)) * (2 * eps + st.dE)
                    then max 0 gamma else min C (C + gamma)) ≤ min C (C + gamma) := by
            split_ifs
            · exact clip_mem hLH.le
            · exact ⟨le_refl _, hLH.le⟩
            · exact ⟨hLH.le, le_refl _⟩
          set a2v := (if eta > 0 then clip (st.a2p - (st.dE + 2 * eps) / eta) (max 0 gamma) (min C (C + gamma))
            else if -(max 0 gamma) * (2 * eps + st.dE) > -(min C (C + gamma)) * (2 * eps + st.dE)
              then max 0 gamma else min C (C + gamma)) with ha2v
          obtain ⟨ha2l, ha2h⟩ := ha2
          have hL0 : (0 : ℚ) ≤ max 0 gamma := le_max_left 0 _
          have hLg : gamma ≤ max 0 gamma := le_max_right 0 _
          have hHC : min C (C + gamma) ≤ C := min_le_left _ _
          have hHg : min C (C + gamma) ≤ C + gamma := min_le_right _ _
          have ha20 : 0 ≤ a2v := hL0.trans ha2l
          have ha2C : a2v ≤ C := ha2h.trans hHC
          have ha10 : 0 ≤ st.a1n + (a2v - st.a2p) := by linarith
          have ha1C : st.a1n + (a2v - st.a2p) ≤ C := by linarith
          split_ifs with hupd
          · exact ⟨⟨⟨h1p0, h1pC⟩, ⟨ha10, ha1C⟩, ⟨ha20, ha2C⟩, ⟨h2n0, h2nC⟩⟩,
              ⟨Or.inl h1p, Or.inr h2n⟩,
              by show st.a1p - (st.a1n + (a2v - st.a2p)) + a2v - st.a2n = gamma
                 rw [h1p, h2n]; linarith,
              fun hcc => hinv.c1pos hcc, fun hcc => hinv.c4neg hcc,
              by show st.c1 = true ↔ 1 ∈ st.fires ++ [3]; simp [hinv.f1],
              by show st.c2 = true ↔ 2 ∈ st.fires ++ [3]; simp [hinv.f2],
              by simp,
              by show st.c4 = true ↔ 4 ∈ st.fires ++ [3]; simp [hinv.f4],
              hndapp, hsubapp⟩
          · exact ⟨⟨⟨h1p0, h1pC⟩, ⟨h1n0, h1nC⟩, ⟨h2p0, h2pC⟩, ⟨h2n0, h2nC⟩⟩,
              hinv.compl, hgam, fun hcc => hinv.c1pos hcc, fun hcc => hinv.c4neg hcc,
              by show st.c1 = true ↔ 1 ∈ st.fires ++ [3]; simp [hinv.f1],
              by show st.c2 = true ↔ 2 ∈ st.fires ++ [3]; simp [hinv.f2],
              by simp,
              by show st.c4 = true ↔ 4 ∈ st.fires ++ [3]; simp [hinv.f4],
              hndapp, hsubapp⟩
        · rw [if_neg hLH]
          exact ⟨⟨⟨h1p0, h1pC⟩, ⟨h1n0, h1nC⟩, ⟨h2p0, h2pC⟩, ⟨h2n0, h2nC⟩⟩,
            hinv.compl, hgam, fun hcc => hinv.c1pos hcc, fun hcc => hinv.c4neg hcc,
            by show st.c1 = true ↔ 1 ∈ st.fires ++ [3]; simp [hinv.f1],
            by show st.c2 = true ↔ 2 ∈ st.fires ++ [3]; simp [hinv.f2],
            by simp,
            by show st.c4 = true ↔ 4 ∈ st.fires ++ [3]; simp [hinv.f4],
            hndapp, hsubapp⟩
      · rw [if_neg hc3]
        by_cases hc4 : ¬st.c4 = true ∧ (st.a1n > 0 ∨ (st.a1p = 0 ∧ st.dE < 0)) ∧
            (st.a2n > 0 ∨ (st.a2p = 0 ∧ st.dE > 0))
        · rw [if_pos hc4]
          obtain ⟨hnc, hd1, hd2⟩ := hc4
          have h1p : st.a1p = 0 := by
            rcases hd1 with hp | ⟨hz, _⟩
            · rcases hinv.compl.1 with h | h
              · exact h
              · linarith
            · exact hz
          have h2p : st.a2p = 0 := by
            rcases hd2 with hp | ⟨hz, _⟩
            · rcases hinv.compl.2 with h | h
              · exact h
              · linarith
            · exact hz
          have hgv : gamma = -st.a1n - st.a2n := by rw [← hgam, h1p, h2p]; ring
          have hgneg : gamma < 0 := by
            rcases hd1 with hp | ⟨_, hdE⟩
            · linarith
            · rcases hd2 with hp2 | ⟨_, hdE2⟩
              · linarith
              · linarith
          have hfires : (4 : ℕ) ∉ st.fires := fun hm => hnc (hinv.f4.mpr hm)
          have hndapp : (st.fires ++ [4]).Nodup := by
            rw [List.nodup_append]
            exact ⟨hinv.nd, List.nodup_singleton 4, by simpa [List.disjoint_singleton] using hfires⟩
          have hsubapp : ∀ x ∈ st.fires ++ [4], x = 1 ∨ x = 2 ∨ x = 3 ∨ x = 4 := by
            intro x hx
            rcases List.mem_append.mp hx with hx | hx
            · exact hinv.sub x hx
            · simp at hx
              exact Or.inr (Or.inr (Or.inr hx))
          by_cases hLH : max 0 (-gamma - C) < min C (-gamma)
          · rw [if_pos hLH]
            simp only []
            have ha2 : max 0 (-gamma - C) ≤
                  (if eta > 0 then clip (st.a2n + st.dE / eta) (max 0 (-gamma - C)) (min C (-gamma))
                    else if max 0 (-gamma - C) * st.dE > min C (-gamma) * st.dE
                      then max 0 (-gamma - C) else min C (-gamma)) ∧
                (if eta > 0 then clip (st.a2n + st.dE / eta) (max 0 (-gamma - C)) (min C (-gamma))
                    else if max 0 (-gamma - C) * st.dE > min C (-gamma) * st.dE
                      then max 0 (-gamma - C) else min C (-gamma)) ≤ min C (-gamma) := by
              split_ifs
              · exact clip_mem hLH.le
              · exact ⟨le_refl _, hLH.le⟩
              · exact ⟨hLH.le, le_refl _⟩
            set a2v := (if eta > 0 then clip (st.a2n + st.dE / eta) (max 0 (-gamma - C)) (min C (-gamma))
              else if max 0 (-gamma - C) * st.dE > min C (-gamma) * st.dE
                then max 0 (-gamma - C) else min C (-gamma)) with ha2v
            obtain ⟨ha2l, ha2h⟩ := ha2
            have hL0 : (0 : ℚ) ≤ max 0 (-gamma - C) := le_max_left 0 _
            have hLg : -gamma - C ≤ max 0 (-gamma - C) := le_max_right 0 _
            have hHC : min C (-gamma) ≤ C := min_le_left _ _
            have hHg : min C (-gamma) ≤ -gamma := min_le_right _ _
            have ha20 : 0 ≤ a2v := hL0.trans ha2l
            have ha2C : a2v ≤ C := ha2h.trans hHC
            have ha10 : 0 ≤ st.a1n - (a2v - st.a2n) := by linarith
            have ha1C : st.a1n - (a2v - st.a2n) ≤ C := by linarith
            split_ifs with hupd
            · exact ⟨⟨⟨h1p0, h1pC⟩, ⟨ha10, ha1C⟩, ⟨h2p0, h2pC⟩, ⟨ha20, ha2C⟩⟩,
                ⟨Or.inl h1p, Or.inl h2p⟩,
                by show st.a1p - (st.a1n - (a2v - st.a2n)) + st.a2p - a2v = gamma
                   rw [h1p, h2p]; linarith,
                fun hcc => hinv.c1pos hcc, fun _ => hgneg,
                by show st.c1 = true ↔ 1 ∈ st.fires ++ [4]; simp [hinv.f1],
                by show st.c2 = true ↔ 2 ∈ st.fires ++ [4]; simp [hinv.f2],
                by show st.c3 = true ↔ 3 ∈ st.fires ++ [4]; simp [hinv.f3],
                by simp,
                hndapp, hsubapp⟩
            · exact ⟨⟨⟨h1p0, h1pC⟩, ⟨h1n0, h1nC⟩, ⟨h2p0, h2pC⟩, ⟨h2n0, h2nC⟩⟩,
                hinv.compl, hgam, fun hcc => hinv.c1pos hcc, fun _ => hgneg,
                by show st.c1 = true ↔ 1 ∈ st.fires ++ [4]; simp [hinv.f1],
                by show st.c2 = true ↔ 2 ∈ st.fires ++ [4]; simp [hinv.f2],
                by show st.c3 = true ↔ 3 ∈ st.fires ++ [4]; simp [hinv.f3],
                by simp,
                hndapp, hsubapp⟩
          · rw [if_neg hLH]
            exact ⟨⟨⟨h1p0, h1pC⟩, ⟨h1n0, h1nC⟩, ⟨h2p0, h2pC⟩, ⟨h2n0, h2nC⟩⟩,
              hinv.compl, hgam, fun hcc => hinv.c1pos hcc, fun _ => hgneg,
              by show st.c1 = true ↔ 1 ∈ st.fires ++ [4]; simp [hinv.f1],
              by show st.c2 = true ↔ 2 ∈ st.fires ++ [4]; simp [hinv.f2],
              by show st.c3 = true ↔ 3 ∈ st.fires ++ [4]; simp [hinv.f3],
              by simp,
              hndapp, hsubapp⟩
        · rw [if_neg hc4]
          exact ⟨⟨⟨h1p0, h1pC⟩, ⟨h1n0, h1nC⟩, ⟨h2p0, h2pC⟩, ⟨h2n0, h2nC⟩⟩,
            hinv.compl, hgam, fun hcc => hinv.c1pos hcc, fun hcc => hinv.c4neg hcc,
            hinv.f1, hinv.f2, hinv.f3, hinv.f4, hinv.nd, hinv.sub⟩


lemma measure_drop_c1 (u st : RCaseState) (hfin : st.finished = false)
    (hc1 : st.c1 = false) (h1 : u.c1 = true) (h2 : u.c2 = st.c2)
    (h3 : u.c3 = st.c3) (h4 : u.c4 = st.c4) :
    loopMeasure u < loopMeasure st := by
  simp only [loopMeasure, h1, h2, h3, h4, hc1, hfin, eq_self_iff_true, if_true,
    Bool.false_eq_true, if_false]
  split_ifs <;> omega

lemma measure_drop_c2 (u st : RCaseState) (hfin : st.finished = false)
    (hc2 : st.c2 = false) (h2 : u.c2 = true) (h1 : u.c1 = st.c1)
    (h3 : u.c3 = st.c3) (h4 : u.c4 = st.c4) :
    loopMeasure u < loopMeasure st := by
  simp only [loopMeasure, h1, h2, h3, h4, hc2, hfin, eq_self_iff_true, if_true,
    Bool.false_eq_true, if_false]
  split_ifs <;> omega

lemma measure_drop_c3 (u st : RCaseState) (hfin : st.finished = false)
    (hc3 : st.c3 = false) (h3 : u.c3 = true) (h1 : u.c1 = st.c1)
    (h2 : u.c2 = st.c2) (h4 : u.c4 = st.c4) :
    loopMeasure u < loopMeasure st := by
  simp only [loopMeasure, h1, h2, h3, h4, hc3, hfin, eq_self_iff_true, if_true,
    Bool.false_eq_true, if_false]
  split_ifs <;> omega

lemma measure_drop_c4 (u st : RCaseState) (hfin : st.finished = false)
    (hc4 : st.c4 = false) (h4 : u.c4 = true) (h1 : u.c1 = st.c1)
    (h2 : u.c2 = st.c2) (h3 : u.c3 = st.c3) :
    loopMeasure u < loopMeasure st := by
  simp only [loopMeasure, h1, h2, h3, h4, hc4, hfin, eq_self_iff_true, if_true,
    Bool.false_eq_true, if_false]
  split_ifs <;> omega

lemma measure_drop_fin (st : RCaseState) (hfin : st.finished = false) :
    loopMeasure { st with finished := true } < loopMeasure st := by
  simp only [loopMeasure, hfin, Bool.false_eq_true, if_false, eq_self_iff_true, if_true]
  split_ifs <;> omega

lemma rCaseStep_measure {C eps eta gamma o2p o2n : ℚ} {st : RCaseState}
    (hfin : st.finished = false) :
    loopMeasure (rCaseStep C eps eta gamma o2p o2n st) < loopMeasure st := by
  have lift : ∀ (u : RCaseState) (x : ℚ), loopMeasure { u with dE := x } = loopMeasure u :=
    fun u x => rfl
  unfold rCaseStep
  rw [lift]
  by_cases hc1 : ¬st.c1 = true ∧ (st.a1p > 0 ∨ (st.a1n = 0 ∧ st.dE > 0)) ∧
      (st.a2p > 0 ∨ (st.a2n = 0 ∧ st.dE < 0))
  · rw [if_pos hc1]
    have hc1f : st.c1 = false := by simpa using hc1.1
    dsimp only
    split_ifs <;> exact measure_drop_c1 _ _ hfin hc1f rfl rfl rfl rfl
  · rw [if_neg hc1]
    by_cases hc2 : ¬st.c2 = true ∧ (st.a1p > 0 ∨ (st.a1n = 0 ∧ st.dE > 2 * eps)) ∧
        (st.a2n > 0 ∨ (st.a2p = 0 ∧ st.dE > 2 * eps))
    · rw [if_pos hc2]
      have hc2f : st.c2 = false := by simpa using hc2.1
      dsimp only
      split_ifs <;> exact measure_drop_c2 _ _ hfin hc2f rfl rfl rfl rfl
    · rw [if_neg hc2]
      by_cases hc3 : ¬st.c3 = true ∧ (st.a1n > 0 ∨ (st.a1p = 0 ∧ st.dE < -(2 * eps))) ∧
          (st.a2p > 0 ∨ (st.a2n = 0 ∧ st.dE < -(2 * eps)))
      · rw [if_pos hc3]
        have hc3f : st.c3 = false := by simpa using hc3.1
        dsimp only
        split_ifs <;> exact measure_drop_c3 _ _ hfin hc3f rfl rfl rfl rfl
      · rw [if_neg hc3]
        by_cases hc4 : ¬st.c4 = true ∧ (st.a1n > 0 ∨ (st.a1p = 0 ∧ st.dE < 0)) ∧
            (st.a2n > 0 ∨ (st.a2p = 0 ∧ st.dE > 0))
        · rw [if_pos hc4]
          have hc4f : st.c4 = false := by simpa using hc4.1
          dsimp only
          split_ifs <;> exact measure_drop_c4 _ _ hfin hc4f rfl rfl rfl rfl
        · rw [if_neg hc4]
          exact measure_drop_fin st hfin

lemma rCaseLoop_inv {C eps eta gamma o2p o2n : ℚ} (hC : 0 ≤ C) :
    ∀ (fuel : ℕ) (st : RCaseState), LInv C gamma st →
      LInv C gamma (rCaseLoop C eps eta gamma o2p o2n fuel st) := by
  intro fuel
  induction fuel with
  | zero => intro st h; exact h
  | succ fuel ih =>
    intro st h
    rw [rCaseLoop]
    split_ifs
    · exact h
    · exact ih _ (rCaseStep_inv hC h)

lemma rCaseLoop_finished {C eps eta gamma o2p o2n : ℚ} :
    ∀ (fuel : ℕ) (st : RCaseState), loopMeasure st ≤ fuel →
      (rCaseLoop C eps eta gamma o2p o2n fuel st).finished = true := by
  intro fuel
  induction fuel with
  | zero =>
    intro st h
    rw [rCaseLoop]
    by_cases hf : st.finished = true
    · exact hf
    · exfalso
      have hf2 : st.finished = false := by simpa using hf
      simp only [loopMeasure, hf2, Bool.false_eq_true, if_false] at h
      split_ifs at h <;> omega
  | succ fuel ih =>
    intro st h
    rw [rCaseLoop]
    by_cases hf : st.finished = true
    · rw [if_pos hf]
      exact hf
    · rw [if_neg hf]
      apply ih
      have hf2 : st.finished = false := by simpa using hf
      have := @rCaseStep_measure C eps eta gamma o2p o2n st hf2
      omega

lemma fires_length_le {l : List ℕ} (nd : l.Nodup)
    (sub : ∀ x ∈ l, x = 1 ∨ x = 2 ∨ x = 3 ∨ x = 4)
    (h14 : 1 ∉ l ∨ 4 ∉ l) : l.length ≤ 3 := by
  have hcard : l.length = l.toFinset.card := (List.toFinset_card_of_nodup nd).symm
  rcases h14 with h | h
  · have hsub : l.toFinset ⊆ ({2, 3, 4} : Finset ℕ) := by
      intro x hx
      have hm := List.mem_toFinset.mp hx
      rcases sub x hm with h1 | h2 | h3 | h4
      · exact absurd (h1 ▸ hm) h
      · simp [h2]
      · simp [h3]
      · simp [h4]
    rw [hcard]
    exact le_trans (Finset.card_le_card hsub) (by decide)
  · have hsub : l.toFinset ⊆ ({1, 2, 3} : Finset ℕ) := by
      intro x hx
      have hm := List.mem_toFinset.mp hx
      rcases sub x hm with h1 | h2 | h3 | h4
      · simp [h1]
      · simp [h2]
      · simp [h3]
      · exact absurd (h4 ▸ hm) h
    rw [hcard]
    exact le_trans (Finset.card_le_card hsub) (by decide)

/-- C9: for distinct indices of a regression state satisfying the box
and complementarity invariants, the case-evaluation loop of
`SVR.SMORegression._take_step` terminates within its fuel (sets
`finished`), fires each of the four geometric cases at most once, and
fires at most three cases in total before stabilizing. -/
theorem regression_case_loop_C9 {n d : ℕ} (p : RParams n d) (s : RState n d)
    (i1 i2 : Fin n) (h12 : i1 ≠ i2) (hC : 0 ≤ p.C) (hbox : RBox p s)
    (hcompl : RCompl s) :
    (rCaseLoop p.C p.epsilon (etaR p i1 i2)
        (s.alphas_p i1 - s.alphas_n i1 + s.alphas_p i2 - s.alphas_n i2)
        (s.alphas_p i2) (s.alphas_n i2) 5 (rCaseInit s i1 i2)).finished = true ∧
      (∀ k, ((rCaseLoop p.C p.epsilon (etaR p i1 i2)
        (s.alphas_p i1 - s.alphas_n i1 + s.alphas_p i2 - s.alphas_n i2)
        (s.alphas_p i2) (s.alphas_n i2) 5 (rCaseInit s i1 i2)).fires.count k ≤ 1)) ∧
      ((rCaseLoop p.C p.epsilon (etaR p i1 i2)
        (s.alphas_p i1 - s.alphas_n i1 + s.alphas_p i2 - s.alphas_n i2)
        (s.alphas_p i2) (s.alphas_n i2) 5 (rCaseInit s i1 i2)).fires.length ≤ 3) := by
  have hinit : LInv p.C
      (s.alphas_p i1 - s.alphas_n i1 + s.alphas_p i2 - s.alphas_n i2)
      (rCaseInit s i1 i2) :=
    { box := ⟨(hbox i1).1, (hbox i1).2, (hbox i2).1, (hbox i2).2⟩
      compl := ⟨hcompl i1, hcompl i2⟩
      gam := rfl
      c1pos := by simp [rCaseInit]
      c4neg := by simp [rCaseInit]
      f1 := by simp [rCaseInit]
      f2 := by simp [rCaseInit]
      f3 := by simp [rCaseInit]
      f4 := by simp [rCaseInit]
      nd := List.nodup_nil
      sub := by simp [rCaseInit] }
  have hfin := @rCaseLoop_inv p.C p.epsilon (etaR p i1 i2)
      (s.alphas_p i1 - s.alphas_n i1 + s.alphas_p i2 - s.alphas_n i2)
      (s.alphas_p i2) (s.alphas_n i2) hC 5 (rCaseInit s i1 i2) hinit
  have hterm := @rCaseLoop_finished p.C p.epsilon (etaR p i1 i2)
      (s.alphas_p i1 - s.alphas_n i1 + s.alphas_p i2 - s.alphas_n i2)
      (s.alphas_p i2) (s.alphas_n i2) 5 (rCaseInit s i1 i2)
      (by norm_num [loopMeasure, rCaseInit])
  have h14 : 1 ∉ (rCaseLoop p.C p.epsilon (etaR p i1 i2)
        (s.alphas_p i1 - s.alphas_n i1 + s.alphas_p i2 - s.alphas_n i2)
        (s.alphas_p i2) (s.alphas_n i2) 5 (rCaseInit s i1 i2)).fires ∨
      4 ∉ (rCaseLoop p.C p.epsilon (etaR p i1 i2)
        (s.alphas_p i1 - s.alphas_n i1 + s.alphas_p i2 - s.alphas_n i2)
        (s.alphas_p i2) (s.alphas_n i2) 5 (rCaseInit s i1 i2)).fires := by
    by_cases h1 : 1 ∈ (rCaseLoop p.C p.epsilon (etaR p i1 i2)
        (s.alphas_p i1 - s.alphas_n i1 + s.alphas_p i2 - s.alphas_n i2)
        (s.alphas_p i2) (s.alphas_n i2) 5 (rCaseInit s i1 i2)).fires
    · refine Or.inr fun h4 => ?_
      have hpos := hfin.c1pos (hfin.f1.mpr h1)
      have hneg := hfin.c4neg (hfin.f4.mpr h4)
      linarith
    · exact Or.inl h1
  exact ⟨hterm, List.nodup_iff_count_le_one.mp hfin.nd,
    fires_length_le hfin.nd hfin.sub h14⟩

theorem regression_case_loop_C9_witness :
    ((0 : Fin 2) ≠ 1 ∧ 0 ≤ pR0.C ∧ RBox pR0 sR0 ∧ RCompl sR0) ∧
      ((rCaseLoop pR0.C pR0.epsilon (etaR pR0 0 1)
          (sR0.alphas_p 0 - sR0.alphas_n 0 + sR0.alphas_p 1 - sR0.alphas_n 1)
          (sR0.alphas_p 1) (sR0.alphas_n 1) 5 (rCaseInit sR0 0 1)).finished = true ∧
        (∀ k, ((rCaseLoop pR0.C pR0.epsilon (etaR pR0 0 1)
          (sR0.alphas_p 0 - sR0.alphas_n 0 + sR0.alphas_p 1 - sR0.alphas_n 1)
          (sR0.alphas_p 1) (sR0.alphas_n 1) 5 (rCaseInit sR0 0 1)).fires.count k ≤ 1)) ∧
        ((rCaseLoop pR0.C pR0.epsilon (etaR pR0 0 1)
          (sR0.alphas_p 0 - sR0.alphas_n 0 + sR0.alphas_p 1 - sR0.alphas_n 1)
          (sR0.alphas_p 1) (sR0.alphas_n 1) 5 (rCaseInit sR0 0 1)).fires.length ≤ 3)) := by
  have h12 : (0 : Fin 2) ≠ 1 := by decide
  have hC : 0 ≤ pR0.C := by norm_num [pR0_Cv]
  have hbox : RBox pR0 sR0 := by
    intro i
    fin_cases i <;> norm_num [sR0, pR0_Cv]
  have hcompl : RCompl sR0 := by
    intro i
    fin_cases i <;> exact Or.inl (by simp [sR0])
  exact ⟨⟨h12, hC, hbox, hcompl⟩,
    regression_case_loop_C9 pR0 sR0 0 1 h12 hC hbox hcompl⟩

lemma takeStepR_ok_true {n d : ℕ} {p : RParams n d} {s : RState n d} {i1 i2 : Fin n}
    {s1 : RState n d} (h : takeStepR p s i1 i2 = .ok (true, s1)) :
    i1 ≠ i2 ∧ s1 = takeStepUpdateR p s i1 i2
      (rCaseLoop p.C p.epsilon (etaR p i1 i2)
        (s.alphas_p i1 - s.alphas_n i1 + s.alphas_p i2 - s.alphas_n i2)
        (s.alphas_p i2) (s.alphas_n i2) 5 (rCaseInit s i1 i2)) := by
  by_cases h12 : i1 = i2
  · rw [takeStepR, if_pos h12] at h
    exact absurd h (by simp)
  · rw [takeStepR, if_neg h12] at h
    simp only [] at h
    split_ifs at h with h2 h3 <;> simp at h
    exact ⟨h12, h.symm⟩

lemma takeStepUpdateR_alphas_p {n d : ℕ} (p : RParams n d) (s : RState n d)
    (i1 i2 : Fin n) (st : RCaseState) :
    (takeStepUpdateR p s i1 i2 st).alphas_p =
      Function.update (Function.update s.alphas_p i1 (snapR p.C st.a1p)) i2
        (snapR p.C st.a2p) := rfl

lemma takeStepUpdateR_alphas_n {n d : ℕ} (p : RParams n d) (s : RState n d)
    (i1 i2 : Fin n) (st : RCaseState) :
    (takeStepUpdateR p s i1 i2 st).alphas_n =
      Function.update (Function.update s.alphas_n i1 (snapR p.C st.a1n)) i2
        (snapR p.C st.a2n) := rfl

lemma rCaseInit_inv {n d : ℕ} {p : RParams n d} {s : RState n d} (i1 i2 : Fin n)
    (hbox : RBox p s) (hcompl : RCompl s) :
    LInv p.C (s.alphas_p i1 - s.alphas_n i1 + s.alphas_p i2 - s.alphas_n i2)
      (rCaseInit s i1 i2) :=
  { box := ⟨(hbox i1).1, (hbox i1).2, (hbox i2).1, (hbox i2).2⟩
    compl := ⟨hcompl i1, hcompl i2⟩
    gam := rfl
    c1pos := by simp [rCaseInit]
    c4neg := by simp [rCaseInit]
    f1 := by simp [rCaseInit]
    f2 := by simp [rCaseInit]
    f3 := by simp [rCaseInit]
    f4 := by simp [rCaseInit]
    nd := List.nodup_nil
    sub := by simp [rCaseInit] }

lemma a1C_box {n d : ℕ} {p : CParams n d} {s : CState n d} {i1 i2 : Fin n} {a2 : ℚ}
    (hlab : CLabels p) (hbox : CBox p s)
    (hl : (boundsC p s i1 i2).1 ≤ a2) (hh : a2 ≤ (boundsC p s i1 i2).2) :
    0 ≤ s.alphas i1 + p.y i1 * p.y i2 * (s.alphas i2 - a2) ∧
      s.alphas i1 + p.y i1 * p.y i2 * (s.alphas i2 - a2) ≤ p.C := by
  obtain ⟨h10, h1C⟩ := hbox i1
  simp only [boundsC] at hl hh
  rcases hlab i1 with hy1 | hy1 <;> rcases hlab i2 with hy2 | hy2 <;>
    rw [hy1, hy2] at hl hh ⊢ <;> norm_num at hl hh ⊢ <;>
    constructor <;> linarith [hl.1, hl.2, hh.1, hh.2]

/-- C1: the multipliers stay inside the box `[0, C]` at every stable
point of both engines: the states built by the two initializers satisfy
it, and every successful pair update preserves it (together with the
complementarity of the paired regression multipliers, which the run
also maintains). -/
theorem box_constraint_invariant_C1 :
    (∀ (n d : ℕ) (p : CParams n d) (s0 : CState n d),
        0 ≤ p.C → initC p = some s0 → CBox p s0) ∧
      (∀ (n d : ℕ) (p : CParams n d) (s s1 : CState n d) (i1 i2 : Fin n),
        CLabels p → 0 ≤ p.C → CBox p s →
        takeStepC p s i1 i2 = .ok (true, s1) → CBox p s1) ∧
      (∀ (n d : ℕ) (p : RParams n d) (h : 0 < n),
        0 ≤ p.C → RBox p (initR p h) ∧ RCompl (initR p h)) ∧
      (∀ (n d : ℕ) (p : RParams n d) (s s1 : RState n d) (i1 i2 : Fin n),
        0 ≤ p.C → RBox p s → RCompl s →
        takeStepR p s i1 i2 = .ok (true, s1) → RBox p s1 ∧ RCompl s1) := by
  refine ⟨?_, ?_, ?_, ?_⟩
  · intro n d p s0 hC h
    rw [initC] at h
    rcases h1 : (List.finRange n).find? (fun i => decide (p.y i = 1)) with _ | up <;>
      rcases h2 : (List.finRange n).find? (fun i => decide (p.y i = -1)) with _ | low <;>
      rw [h1, h2] at h <;> simp at h
    rw [← h]
    exact fun i => ⟨le_refl 0, hC⟩
  · intro n d p s s1 i1 i2 hlab hC hbox h
    obtain ⟨h12, hs1⟩ := takeStepC_ok_true h
    intro i
    rw [hs1, takeStepUpdateC_alphas]
    rcases eq_or_ne i i2 with rfl | hi2
    · rw [Function.update_same]
      exact snapC_mem hC (a2C_box i1 i (hbox)).1 (a2C_box i1 i (hbox)).2
    · rw [Function.update_noteq hi2]
      rcases eq_or_ne i i1 with rfl | hi1
      · rw [Function.update_same]
        rcases a2C_cases i i2 hbox with ⟨hl, hh⟩ | heq
        · have hb := a1C_box hlab hbox hl hh
          exact snapC_mem hC hb.1 hb.2
        · have hval : s.alphas i + p.y i * p.y i2 * (s.alphas i2 - a2C p s i i2) =
              s.alphas i := by rw [heq]; ring
          rw [hval]
          exact snapC_mem hC (hbox i).1 (hbox i).2
      · rw [Function.update_noteq hi1]
        exact hbox i
  · intro n d p h hC
    exact ⟨fun i => ⟨⟨le_refl 0, hC⟩, le_refl 0, hC⟩, fun i => Or.inl rfl⟩
  · intro n d p s s1 i1 i2 hC hbox hcompl h
    obtain ⟨h12, hs1⟩ := takeStepR_ok_true h
    have hfin := @rCaseLoop_inv p.C p.epsilon (etaR p i1 i2)
      (s.alphas_p i1 - s.alphas_n i1 + s.alphas_p i2 - s.alphas_n i2)
      (s.alphas_p i2) (s.alphas_n i2) hC 5 (rCaseInit s i1 i2)
      (rCaseInit_inv i1 i2 hbox hcompl)
    obtain ⟨⟨h1p0, h1pC⟩, ⟨h1n0, h1nC⟩, ⟨h2p0, h2pC⟩, ⟨h2n0, h2nC⟩⟩ := hfin.box
    obtain ⟨hco1, hco2⟩ := hfin.compl
    constructor
    · intro i
      rw [hs1, takeStepUpdateR_alphas_p, takeStepUpdateR_alphas_n]
      rcases eq_or_ne i i2 with rfl | hi2
      · rw [Function.update_same, Function.update_same]
        exact ⟨snapR_mem hC h2p0 h2pC, snapR_mem hC h2n0 h2nC⟩
      · rw [Function.update_noteq hi2, Function.update_noteq hi2]
        rcases eq_or_ne i i1 with rfl | hi1
        · rw [Function.update_same, Function.update_same]
          exact ⟨snapR_mem hC h1p0 h1pC, snapR_mem hC h1n0 h1nC⟩
        · rw [Function.update_noteq hi1, Function.update_noteq hi1]
          exact hbox i
    · intro i
      rw [hs1, takeStepUpdateR_alphas_p, takeStepUpdateR_alphas_n]
      rcases eq_or_ne i i2 with rfl | hi2
      · rw [Function.update_same, Function.update_same]
        rcases hco2 with hz | hz
        · exact Or.inl (by rw [hz]; exact snapR_zero hC)
        · exact Or.inr (by rw [hz]; exact snapR_zero hC)
      · rw [Function.update_noteq hi2, Function.update_noteq hi2]
        rcases eq_or_ne i i1 with rfl | hi1
        · rw [Function.update_same, Function.update_same]
          rcases hco1 with hz | hz
          · exact Or.inl (by rw [hz]; exact snapR_zero hC)
          · exact Or.inr (by rw [hz]; exact snapR_zero hC)
        · rw [Function.update_noteq hi1, Function.update_noteq hi1]
          exact hcompl i

lemma initC_pC0 : initC pC0 = some sC0 := by
  norm_num [initC, pC0, sC0, List.finRange, List.ofFn, List.find?, Fin.isValue]
  and_intros <;> first
    | rfl
    | (funext i; fin_cases i <;> norm_num [Function.update])

lemma takeStepC_sC0 : takeStepC pC0 sC0 1 0 = .ok (true, rC0) := by
  norm_num [takeStepC, takeStepUpdateC, boundsC, etaC,
    a2C, clip, snapC, updateSetsC, thresholdScanC, pC0, sC0, rC0, floatMax,
    Function.update, List.finRange, List.ofFn, List.filter, List.foldl, Fin.sum_univ_two]
  rw [if_neg (by simp)]
  simp only [Except.ok.injEq, Prod.mk.injEq, CState.mk.injEq, true_and, and_true]
  and_intros <;> first
    | rfl
    | (funext i; fin_cases i <;> norm_num [Function.update])

theorem box_constraint_invariant_C1_witness :
    (0 ≤ pC0.C ∧ initC pC0 = some sC0 ∧ CBox pC0 sC0) ∧
      (CLabels pC0 ∧ takeStepC pC0 sC0 1 0 = .ok (true, rC0) ∧ CBox pC0 rC0) ∧
      (RBox pR0 (initR pR0 Nat.zero_lt_two) ∧ RCompl (initR pR0 Nat.zero_lt_two)) ∧
      (0 ≤ pR0.C ∧ RBox pR0 sR2 ∧ RCompl sR2 ∧
        takeStepR pR0 sR2 0 1 = .ok (true, sR2out) ∧
        RBox pR0 sR2out ∧ RCompl sR2out) := by
  have hCc : (0 : ℚ) ≤ pC0.C := by norm_num [pC0_C]
  have hlab : CLabels pC0 := by
    intro i
    fin_cases i
    · exact Or.inl rfl
    · exact Or.inr rfl
  have hbox0 : CBox pC0 sC0 := box_constraint_invariant_C1.1 2 1 pC0 sC0 hCc initC_pC0
  have hboxr : CBox pC0 rC0 :=
    box_constraint_invariant_C1.2.1 2 1 pC0 sC0 rC0 1 0 hlab hCc hbox0 takeStepC_sC0
  have hCr : (0 : ℚ) ≤ pR0.C := by norm_num [pR0_Cv]
  have hinitR := box_constraint_invariant_C1.2.2.1 2 1 pR0 Nat.zero_lt_two hCr
  have hboxs : RBox pR0 sR2 := by
    intro i
    fin_cases i <;> norm_num [sR2, pR0_Cv]
  have hcompls : RCompl sR2 := by
    intro i
    fin_cases i <;> exact Or.inl (by norm_num [sR2])
  have hstep := box_constraint_invariant_C1.2.2.2 2 1 pR0 sR2 sR2out 0 1 hCr hboxs
    hcompls takeStepR_sR2
  exact ⟨⟨hCc, initC_pC0, hbox0⟩, ⟨hlab, takeStepC_sC0, hboxr⟩, hinitR,
    ⟨hCr, hboxs, hcompls, takeStepR_sR2, hstep⟩⟩

lemma sum_mul_update_two {n : ℕ} (f g : Fin n → ℚ) {i1 i2 : Fin n} (h : i1 ≠ i2)
    (v1 v2 : ℚ) :
    ∑ i, f i * (Function.update (Function.update g i1 v1) i2 v2) i =
      (∑ i, f i * g i) + f i1 * (v1 - g i1) + f i2 * (v2 - g i2) := by
  have key : ∀ i, f i * (Function.update (Function.update g i1 v1) i2 v2) i =
      f i * g i + ((if i = i1 then f i1 * (v1 - g i1) else 0) +
        (if i = i2 then f i2 * (v2 - g i2) else 0)) := by
    intro i
    rcases eq_or_ne i i2 with rfl | hi2
    · rw [Function.update_same, if_neg (Ne.symm h), if_pos rfl]
      ring
    · rw [Function.update_noteq hi2, if_neg hi2]
      rcases eq_or_ne i i1 with rfl | hi1
      · rw [Function.update_same, if_pos rfl]
        ring
      · rw [Function.update_noteq hi1, if_neg hi1]
        ring
  rw [Finset.sum_congr rfl (fun i _ => key i), Finset.sum_add_distrib,
    Finset.sum_add_distrib, Finset.sum_ite_eq' Finset.univ i1,
    Finset.sum_ite_eq' Finset.univ i2]
  simp only [Finset.mem_univ, if_true]
  ring

lemma sum_update_two {n : ℕ} (g : Fin n → ℚ) {i1 i2 : Fin n} (h : i1 ≠ i2)
    (v1 v2 : ℚ) :
    ∑ i, (Function.update (Function.update g i1 v1) i2 v2) i =
      (∑ i, g i) + (v1 - g i1) + (v2 - g i2) := by
  have key := sum_mul_update_two (fun _ => (1 : ℚ)) g h v1 v2
  simpa using key

lemma a1C_box_a2C {n d : ℕ} {p : CParams n d} {s : CState n d} (i1 i2 : Fin n)
    (hlab : CLabels p) (hbox : CBox p s) :
    0 ≤ s.alphas i1 + p.y i1 * p.y i2 * (s.alphas i2 - a2C p s i1 i2) ∧
      s.alphas i1 + p.y i1 * p.y i2 * (s.alphas i2 - a2C p s i1 i2) ≤ p.C := by
  rcases a2C_cases i1 i2 hbox with ⟨hl, hh⟩ | heq
  · exact a1C_box hlab hbox hl hh
  · have hval : s.alphas i1 + p.y i1 * p.y i2 * (s.alphas i2 - a2C p s i1 i2) =
        s.alphas i1 := by rw [heq]; ring
    rw [hval]
    exact hbox i1

/-- C2: after a successful pair update the linear equality constraint is
preserved up to the precision snap: the classification sum
`sum(y[i] * alphas[i])` moves by at most `2e-8 * C` (the pre-snap update
preserves it exactly), and the regression sum
`sum(alphas_p[i] - alphas_n[i])` moves by at most `4e-10 * C` — it is
not literally unchanged, as the counterexample shows. -/
theorem equality_constraint_preserved_C2 :
    (∀ (n d : ℕ) (p : CParams n d) (s s1 : CState n d) (i1 i2 : Fin n),
        CLabels p → 0 ≤ p.C → CBox p s →
        takeStepC p s i1 i2 = .ok (true, s1) →
        |(∑ i, p.y i * s1.alphas i) - ∑ i, p.y i * s.alphas i| ≤
          2 * (1 / 10 ^ 8) * p.C) ∧
      (∀ (n d : ℕ) (p : RParams n d) (s s1 : RState n d) (i1 i2 : Fin n),
        0 ≤ p.C → RBox p s → RCompl s →
        takeStepR p s i1 i2 = .ok (true, s1) →
        |(∑ i, (s1.alphas_p i - s1.alphas_n i)) -
            ∑ i, (s.alphas_p i - s.alphas_n i)| ≤ 4 * (1 / 10 ^ 10) * p.C) := by
  constructor
  · intro n d p s s1 i1 i2 hlab hC hbox h
    obtain ⟨h12, hs1⟩ := takeStepC_ok_true h
    rw [hs1, takeStepUpdateC_alphas, sum_mul_update_two _ _ h12]
    have hb1 := a1C_box_a2C i1 i2 hlab hbox
    have hb2 := a2C_box i1 i2 hbox
    have hs1c := snapC_close hb1.1 hb1.2
    have hs2c := snapC_close hb2.1 hb2.2
    rw [abs_le] at hs1c hs2c
    rcases hlab i1 with hy1 | hy1 <;> rcases hlab i2 with hy2 | hy2 <;>
      simp only [hy1, hy2] at hs1c ⊢ <;> rw [abs_le] <;>
      constructor <;> linarith [hs1c.1, hs1c.2, hs2c.1, hs2c.2]
  · intro n d p s s1 i1 i2 hC hbox hcompl h
    obtain ⟨h12, hs1⟩ := takeStepR_ok_true h
    have hfin := @rCaseLoop_inv p.C p.epsilon (etaR p i1 i2)
      (s.alphas_p i1 - s.alphas_n i1 + s.alphas_p i2 - s.alphas_n i2)
      (s.alphas_p i2) (s.alphas_n i2) hC 5 (rCaseInit s i1 i2)
      (rCaseInit_inv i1 i2 hbox hcompl)
    obtain ⟨⟨h1p0, h1pC⟩, ⟨h1n0, h1nC⟩, ⟨h2p0, h2pC⟩, ⟨h2n0, h2nC⟩⟩ := hfin.box
    have hgam := hfin.gam
    have hc1 := snapR_close h1p0 h1pC
    have hc2 := snapR_close h1n0 h1nC
    have hc3 := snapR_close h2p0 h2pC
    have hc4 := snapR_close h2n0 h2nC
    rw [abs_le] at hc1 hc2 hc3 hc4
    rw [hs1, takeStepUpdateR_alphas_p, takeStepUpdateR_alphas_n,
      Finset.sum_sub_distrib, Finset.sum_sub_distrib,
      sum_update_two _ h12, sum_update_two _ h12, abs_le]
    constructor <;>
      linarith [hc1.1, hc1.2, hc2.1, hc2.2, hc3.1, hc3.2, hc4.1, hc4.2]

/-- C2 counterexample: the successful regression pair update `(0, 1)` on
`sR2` changes `sum(alphas_p - alphas_n)` (by `5e-11`, through the
precision snap), so the regression sum is not literally unchanged. -/
theorem equality_constraint_counterexample_C2 :
    takeStepR pR0 sR2 0 1 = .ok (true, sR2out) ∧
      (∑ i, (sR2out.alphas_p i - sR2out.alphas_n i)) ≠
        ∑ i, (sR2.alphas_p i - sR2.alphas_n i) := by
  refine ⟨takeStepR_sR2, ?_⟩
  norm_num [sR2out, sR2, Fin.sum_univ_two]

theorem equality_constraint_preserved_C2_witness :
    (CLabels pC0 ∧ 0 ≤ pC0.C ∧ CBox pC0 sC0 ∧
        takeStepC pC0 sC0 1 0 = .ok (true, rC0) ∧
        |(∑ i, pC0.y i * rC0.alphas i) - ∑ i, pC0.y i * sC0.alphas i| ≤
          2 * (1 / 10 ^ 8) * pC0.C) ∧
      (0 ≤ pR0.C ∧ RBox pR0 sR2 ∧ RCompl sR2 ∧
        takeStepR pR0 sR2 0 1 = .ok (true, sR2out) ∧
        |(∑ i, (sR2out.alphas_p i - sR2out.alphas_n i)) -
            ∑ i, (sR2.alphas_p i - sR2.alphas_n i)| ≤ 4 * (1 / 10 ^ 10) * pR0.C) := by
  have hlab : CLabels pC0 := by
    intro i
    fin_cases i
    · exact Or.inl rfl
    · exact Or.inr rfl
  have hCc : (0 : ℚ) ≤ pC0.C := by norm_num [pC0_C]
  have hbox0 : CBox pC0 sC0 := by
    intro i
    fin_cases i <;> norm_num [sC0, pC0_C]
  have hCr : (0 : ℚ) ≤ pR0.C := by norm_num [pR0_Cv]
  have hboxs : RBox pR0 sR2 := by
    intro i
    fin_cases i <;> norm_num [sR2, pR0_Cv]
  have hcompls : RCompl sR2 := by
    intro i
    fin_cases i <;> exact Or.inl (by norm_num [sR2])
  exact ⟨⟨hlab, hCc, hbox0, takeStepC_sC0,
      equality_constraint_preserved_C2.1 2 1 pC0 sC0 rC0 1 0 hlab hCc hbox0 takeStepC_sC0⟩,
    ⟨hCr, hboxs, hcompls, takeStepR_sR2,
      equality_constraint_preserved_C2.2 2 1 pR0 sR2 sR2out 0 1 hCr hboxs hcompls
        takeStepR_sR2⟩⟩

/-- C8: the precision snap after a successful pair update: a touched
classification multiplier strictly above `C - 1e-8*C` becomes exactly
`C` and one strictly below `1e-8*C` becomes exactly `0` or exactly `C`,
a touched regression multiplier strictly above `C - 1e-10*C` becomes
exactly `C` and one at or below `1e-10*C` becomes exactly `0` or
exactly `C`, values outside the tolerance bands are kept, and the
stored multipliers of a successful update are exactly the snapped
working values. -/
theorem precision_snap_C8 :
    (∀ (C a : ℚ), (C - 1 / 10 ^ 8 * C < a → snapC C a = C) ∧
        (a < 1 / 10 ^ 8 * C → snapC C a = 0 ∨ snapC C a = C) ∧
        (a ≤ C - 1 / 10 ^ 8 * C → 1 / 10 ^ 8 * C ≤ a → snapC C a = a)) ∧
      (∀ (C a : ℚ), (C - 1 / 10 ^ 10 * C < a → snapR C a = C) ∧
        (a ≤ 1 / 10 ^ 10 * C → snapR C a = 0 ∨ snapR C a = C) ∧
        (a ≤ C - 1 / 10 ^ 10 * C → 1 / 10 ^ 10 * C < a → snapR C a = a)) ∧
      (∀ (n d : ℕ) (p : CParams n d) (s s1 : CState n d) (i1 i2 : Fin n),
        takeStepC p s i1 i2 = .ok (true, s1) →
        s1.alphas i2 = snapC p.C (a2C p s i1 i2) ∧
          s1.alphas i1 = snapC p.C (s.alphas i1 +
            p.y i1 * p.y i2 * (s.alphas i2 - a2C p s i1 i2))) ∧
      (∀ (n d : ℕ) (p : RParams n d) (s s1 : RState n d) (i1 i2 : Fin n),
        takeStepR p s i1 i2 = .ok (true, s1) →
        s1.alphas_p i1 = snapR p.C (rCaseLoop p.C p.epsilon (etaR p i1 i2)
          (s.alphas_p i1 - s.alphas_n i1 + s.alphas_p i2 - s.alphas_n i2)
          (s.alphas_p i2) (s.alphas_n i2) 5 (rCaseInit s i1 i2)).a1p ∧
          s1.alphas_n i1 = snapR p.C (rCaseLoop p.C p.epsilon (etaR p i1 i2)
          (s.alphas_p i1 - s.alphas_n i1 + s.alphas_p i2 - s.alphas_n i2)
          (s.alphas_p i2) (s.alphas_n i2) 5 (rCaseInit s i1 i2)).a1n ∧
          s1.alphas_p i2 = snapR p.C (rCaseLoop p.C p.epsilon (etaR p i1 i2)
          (s.alphas_p i1 - s.alphas_n i1 + s.alphas_p i2 - s.alphas_n i2)
          (s.alphas_p i2) (s.alphas_n i2) 5 (rCaseInit s i1 i2)).a2p ∧
          s1.alphas_n i2 = snapR p.C (rCaseLoop p.C p.epsilon (etaR p i1 i2)
          (s.alphas_p i1 - s.alphas_n i1 + s.alphas_p i2 - s.alphas_n i2)
          (s.alphas_p i2) (s.alphas_n i2) 5 (rCaseInit s i1 i2)).a2n) := by
  refine ⟨?_, ?_, ?_, ?_⟩
  · intro C a
    refine ⟨fun h => ?_, fun h => ?_, fun h1 h2 => ?_⟩
    · rw [snapC, if_pos h]
    · by_cases hhi : a > C - 1 / 10 ^ 8 * C
      · exact Or.inr (by rw [snapC, if_pos hhi])
      · exact Or.inl (by rw [snapC, if_neg hhi, if_pos h])
    · rw [snapC, if_neg (not_lt.mpr h1), if_neg (not_lt.mpr h2)]
  · intro C a
    refine ⟨fun h => ?_, fun h => ?_, fun h1 h2 => ?_⟩
    · rw [snapR, if_pos h]
    · by_cases hhi : a > C - 1 / 10 ^ 10 * C
      · exact Or.inr (by rw [snapR, if_pos hhi])
      · exact Or.inl (by rw [snapR, if_neg hhi, if_pos h])
    · rw [snapR, if_neg (not_lt.mpr h1), if_neg (not_le.mpr h2)]
  · intro n d p s s1 i1 i2 h
    obtain ⟨h12, hs1⟩ := takeStepC_ok_true h
    rw [hs1, takeStepUpdateC_alphas]
    exact ⟨by rw [Function.update_same],
      by rw [Function.update_noteq h12, Function.update_same]⟩
  · intro n d p s s1 i1 i2 h
    obtain ⟨h12, hs1⟩ := takeStepR_ok_true h
    rw [hs1, takeStepUpdateR_alphas_p, takeStepUpdateR_alphas_n]
    exact ⟨by rw [Function.update_noteq h12, Function.update_same],
      by rw [Function.update_noteq h12, Function.update_same],
      by rw [Function.update_same], by rw [Function.update_same]⟩

theorem precision_snap_C8_witness :
    ((1 : ℚ) - 1 / 10 ^ 8 * 1 < 1 ∧ snapC 1 1 = 1) ∧
      ((1 : ℚ) / 2 ≤ 1 - 1 / 10 ^ 8 * 1 ∧ (1 : ℚ) / 10 ^ 8 * 1 ≤ 1 / 2 ∧
        snapC 1 (1 / 2) = 1 / 2) ∧
      ((0 : ℚ) ≤ 1 / 10 ^ 10 * 1 ∧ (snapR 1 0 = 0 ∨ snapR 1 0 = 1)) ∧
      (takeStepC pC0 sC0 1 0 = .ok (true, rC0) ∧
        rC0.alphas 0 = snapC pC0.C (a2C pC0 sC0 1 0) ∧
        rC0.alphas 1 = snapC pC0.C (sC0.alphas 1 +
          pC0.y 1 * pC0.y 0 * (sC0.alphas 0 - a2C pC0 sC0 1 0))) ∧
      (takeStepR pR0 sR2 0 1 = .ok (true, sR2out) ∧
        sR2out.alphas_p 0 = snapR pR0.C (rCaseLoop pR0.C pR0.epsilon (etaR pR0 0 1)
          (sR2.alphas_p 0 - sR2.alphas_n 0 + sR2.alphas_p 1 - sR2.alphas_n 1)
          (sR2.alphas_p 1) (sR2.alphas_n 1) 5 (rCaseInit sR2 0 1)).a1p ∧
        sR2out.alphas_n 0 = snapR pR0.C (rCaseLoop pR0.C pR0.epsilon (etaR pR0 0 1)
          (sR2.alphas_p 0 - sR2.alphas_n 0 + sR2.alphas_p 1 - sR2.alphas_n 1)
          (sR2.alphas_p 1) (sR2.alphas_n 1) 5 (rCaseInit sR2 0 1)).a1n ∧
        sR2out.alphas_p 1 = snapR pR0.C (rCaseLoop pR0.C pR0.epsilon (etaR pR0 0 1)
          (sR2.alphas_p 0 - sR2.alphas_n 0 + sR2.alphas_p 1 - sR2.alphas_n 1)
          (sR2.alphas_p 1) (sR2.alphas_n 1) 5 (rCaseInit sR2 0 1)).a2p ∧
        sR2out.alphas_n 1 = snapR pR0.C (rCaseLoop pR0.C pR0.epsilon (etaR pR0 0 1)
          (sR2.alphas_p 0 - sR2.alphas_n 0 + sR2.alphas_p 1 - sR2.alphas_n 1)
          (sR2.alphas_p 1) (sR2.alphas_n 1) 5 (rCaseInit sR2 0 1)).a2n) := by
  refine ⟨⟨by norm_num, (precision_snap_C8.1 1 1).1 (by norm_num)⟩,
    ⟨by norm_num, by norm_num,
      (precision_snap_C8.1 1 (1 / 2)).2.2 (by norm_num) (by norm_num)⟩,
    ⟨by norm_num, (precision_snap_C8.2.1 1 0).2.1 (by norm_num)⟩,
    ⟨takeStepC_sC0, precision_snap_C8.2.2.1 2 1 pC0 sC0 rC0 1 0 takeStepC_sC0⟩,
    ⟨takeStepR_sR2, precision_snap_C8.2.2.2 2 1 pR0 sR2 sR2out 0 1 takeStepR_sR2⟩⟩

end SVM
